import Mathlib

/-!
Shallow embedding of the AbletonSmartAssistant LangGraph server
(`langgraph_server/rag.py`, `nodes.py`, `workflow.py`, `main.py`) and proofs
about the claims of the specification.

Modelling conventions:
* Python floats are idealised as real numbers (`ℝ`).
* Python `None` is `Option.none`; a missing JSON key in an external response
  is also modelled with `Option` on the corresponding field.
* Calls to external capabilities (OpenAI chat/vision/embedding, the file
  system) are modelled by an oracle (`Ext`) supplying their outcomes; state
  transitions are proved for every possible outcome.
* Python string operations `.lower()`, `.strip()` and the substring test
  `in` are embedded as `pyLower`, `pyStrip`, `pyIn` over character lists
  (the keyword tables of the source are ASCII, where these agree with
  Python's unicode-aware versions).
* Python negative list indexing is embedded by `pyGet`/`pySet`; an
  out-of-range subscript (which raises `IndexError` in Python, uncaught in
  the node functions) sets the `raised` flag of the state.
* The conversation-history field is carried around but never read by any
  node, so it is omitted from the state.
-/

/-- Python `str.lower()` restricted to per-character lowering (the keyword
tables in the source are ASCII, where this coincides with Python). -/
def pyLower (s : String) : String := String.mk (s.data.map Char.toLower)

/-- Python `str.strip()`: drop whitespace on both ends. -/
def pyStrip (s : String) : String :=
  String.mk (((s.data.dropWhile Char.isWhitespace).reverse.dropWhile Char.isWhitespace).reverse)

/-- Helper for `pyIn`: is `pat` a contiguous sublist of the second list? -/
def hasSub (pat : List Char) : List Char → Bool
  | [] => pat.isEmpty
  | c :: rest => pat.isPrefixOf (c :: rest) || hasSub pat rest

/-- Python `pat in s` substring test. -/
def pyIn (pat s : String) : Bool := hasSub pat.data s.data

/-- Python `any(word in s for word in ws)`. -/
def anyKeyword (ws : List String) (s : String) : Bool := ws.any (fun w => pyIn w s)

/-- Python truthiness of an optional string (`None` and `""` are falsy). -/
def truthyS : Option String → Bool
  | none => false
  | some s => s != ""

/-- Python `a or d` for an optional string `a` and fallback `d`. -/
def truthyOrS (a : Option String) (d : String) : String :=
  match a with
  | some s => if s = "" then d else s
  | none => d

/-- Python `f"{x}"` rendering of an optional string (`None` prints as "None"). -/
def pyFormatOpt : Option String → String
  | none => "None"
  | some s => s

/-- Python list index resolution, with negative-index wraparound;
`none` means the subscript raises `IndexError`. -/
def pyIdx (n : Nat) (i : Int) : Option Nat :=
  if 0 ≤ i then (if i < (n : Int) then some i.toNat else none)
  else (if 0 ≤ i + (n : Int) then some (i + (n : Int)).toNat else none)

/-- Python `l[i]` (with negative indexing); `none` models `IndexError`. -/
def pyGet {α : Type} (l : List α) (i : Int) : Option α :=
  match pyIdx l.length i with
  | some j => l[j]?
  | none => none

/-- Python `l[i] = a` (with negative indexing; out of range is unreachable at
the call sites where the element was read first). -/
def pySet {α : Type} (l : List α) (i : Int) (a : α) : List α :=
  match pyIdx l.length i with
  | some j => l.set j a
  | none => l

/-! ## RAG store (`rag.py`) -/

/-- `config.py`: `RAG_TOP_K = int(os.getenv("RAG_TOP_K", "5"))` (default). -/
def RAG_TOP_K : Nat := 5

/-- `config.py`: `VERSION_CHECK_TOP_K = int(os.getenv("VERSION_CHECK_TOP_K", "2"))` (default). -/
def VERSION_CHECK_TOP_K : Nat := 2

/-- A documentation chunk (`Chunk.__init__` in `rag.py`); metadata is an
uninterpreted string dictionary. -/
structure Chunk where
  id : String
  content : String
  edition : Option String
  embedding : List ℝ
  metadata : List (String × String)

/-- `RAGStore`: the two indexes loaded at startup (a missing file loads as
the empty list). -/
structure RAGStore where
  full_index : List Chunk
  versions_index : List Chunk

/-- The dot product `sum(a * b for a, b in zip(vec1, vec2))`. -/
def dotProduct (vec1 vec2 : List ℝ) : ℝ := (List.zipWith (fun a b => a * b) vec1 vec2).sum

/-- `math.sqrt(sum(a * a for a in vec))`. -/
noncomputable def magnitude (vec : List ℝ) : ℝ := Real.sqrt ((vec.map fun a => a * a).sum)

/-- `RAGStore._cosine_similarity`: 0 on length mismatch or a zero magnitude,
otherwise the normalised dot product. -/
noncomputable def cosine_similarity (vec1 vec2 : List ℝ) : ℝ :=
  if vec1.length ≠ vec2.length then 0
  else if magnitude vec1 = 0 ∨ magnitude vec2 = 0 then 0
  else dotProduct vec1 vec2 / (magnitude vec1 * magnitude vec2)

/-- The comparator realising Python's `scored.sort(key=lambda x: x[1],
reverse=True)`: stable descending sort on the similarity component. -/
noncomputable def scoreDesc (a b : Chunk × ℝ) : Bool := decide (b.2 ≤ a.2)

/-- `RAGStore._top_matches`: score every chunk, stable-sort by descending
similarity, keep the first `top_k` chunks. -/
noncomputable def top_matches (chunks : List Chunk) (query_embedding : List ℝ) (top_k : Nat) :
    List Chunk :=
  let scored := chunks.map (fun chunk => (chunk, cosine_similarity query_embedding chunk.embedding))
  let sorted := scored.mergeSort scoreDesc
  (sorted.take top_k).map Prod.fst

/-- The full stable ranking (the scored list after Python's in-place sort,
projected back to chunks), used to state the tie-breaking property. -/
noncomputable def rankedChunks (chunks : List Chunk) (query_embedding : List ℝ) : List Chunk :=
  ((chunks.map (fun chunk => (chunk, cosine_similarity query_embedding chunk.embedding))).mergeSort
    scoreDesc).map Prod.fst

/-- Value type for the fragment dictionaries produced by `_chunk_to_dict`
(`vEmb` exists only so that "the embedding is never included" is statable). -/
inductive DictVal where
  | vStr (s : String)
  | vOptStr (s : Option String)
  | vMeta (m : List (String × String))
  | vEmb (e : List ℝ)

/-- A Python dict as an association list of key/value pairs. -/
abbrev ChunkDict := List (String × DictVal)

/-- `RAGStore._chunk_to_dict`: exactly the keys id/content/edition/metadata. -/
def chunk_to_dict (chunk : Chunk) : ChunkDict :=
  [("id", .vStr chunk.id), ("content", .vStr chunk.content),
   ("edition", .vOptStr chunk.edition), ("metadata", .vMeta chunk.metadata)]

/-- The dict returned by `RAGStore.retrieve`. -/
structure RetrievalResult where
  full : List ChunkDict
  versions : List ChunkDict

/-- `RAGStore.retrieve`: top `top_k` from the full manual index and top
`VERSION_CHECK_TOP_K` from the versions index (`edition` is ignored). -/
noncomputable def RAGStore.retrieve (store : RAGStore) (query_embedding : List ℝ)
    (edition : String) (top_k : Nat) : RetrievalResult :=
  { full := (top_matches store.full_index query_embedding top_k).map chunk_to_dict,
    versions := (top_matches store.versions_index query_embedding VERSION_CHECK_TOP_K).map
      chunk_to_dict }

/-- The method call viewed as a state transformer on the store object: the
method body never assigns to `self.full_index`/`self.versions_index`, so the
store component of the result is the unchanged receiver. -/
noncomputable def RAGStore.retrieveCall (store : RAGStore) (query_embedding : List ℝ)
    (edition : String) (top_k : Nat) : RetrievalResult × RAGStore :=
  (store.retrieve query_embedding edition top_k, store)

/-! ## Workflow state (`state.py`) and external-outcome oracle -/

/-- Button coordinates (`button_coords` dict). JSON numbers are modelled as
integers. -/
structure Coords where
  x : Int
  y : Int
  width : Int
  height : Int
deriving DecidableEq

/-- A step record as kept in the session state after normalisation by
`generate_full_answer` (`text` is `none` when the "text" key is absent). -/
structure Step where
  text : Option String
  requires_click : Bool
  button_coords : Option Coords
deriving DecidableEq

/-- `AgentState` (`state.py`): the session dict. `raised` is not a Python
field; it records that an uncaught `IndexError` occurred in a node. -/
structure AgentState where
  session_id : String := ""
  user_query : String := ""
  ableton_edition : String := ""
  screenshot_url : Option String := none
  intent : Option String := none
  allowed : Option Bool := none
  version_explanation : Option String := none
  selected_chunks : List ChunkDict := []
  full_answer : Option String := none
  steps : List Step := []
  mode : String := "simple"
  current_step_index : Int := 0
  user_choice : Option String := none
  action_required : Option String := none
  response_text : Option String := none
  raised : Bool := false

/-- Parsed JSON of the version-compatibility verdict (missing keys are
`none`). -/
structure VerdictJson where
  allowed : Option Bool
  explanation : Option String

/-- A raw step dict inside the generation JSON, before normalisation
(`none` on a field means the key is absent; on `button_coords`, the inner
option is the possibly-null value). -/
structure RawStep where
  text : Option String
  requires_click : Option Bool
  button_coords : Option (Option Coords)

/-- Parsed JSON of an answer generation (missing keys are `none`). -/
structure GenResult where
  explanation : Option String
  steps : Option (List RawStep)

/-- Outcome of the vision call in `analyze_screenshot_for_button`:
exception during call/parse, no JSON object in the text, or the first JSON
object with its optional fields. -/
inductive VisionBtn where
  | err
  | noJson
  | json (found : Option Bool) (x y w h : Option Int)

/-- Outcome of the vision call in `optional_validate_step`. -/
inductive VisionValid where
  | err
  | noJson
  | json (valid : Option Bool) (explanation : Option String)

/-- Oracle for every external capability used during a turn. Calls that can
happen several times in one turn are indexed by the iteration count at which
they occur. -/
structure ExtOracle where
  hasClient : Bool
  fileExists : String → Bool
  embedding : String → List ℝ
  store : RAGStore
  intentRes : Except Unit (Option String)
  versionRes : Except Unit VerdictJson
  genRes : Except String GenResult
  interactionRes : Nat → Except Unit (Option Bool)
  visionBtnRes : Nat → VisionBtn
  validateRes : Nat → VisionValid
  fallbackRes : Nat → Except Unit (Option (List Int))

/-! ## Node handlers (`nodes.py`) -/

/-- `detect_user_intent`: classify the query; every failure path defaults to
"ableton_question". -/
def detect_user_intent (state : AgentState) (hasClient : Bool)
    (res : Except Unit (Option String)) : AgentState :=
  if ¬hasClient then { state with intent := some "ableton_question" }
  else
    match res with
    | .error _ => { state with intent := some "ableton_question" }
    | .ok none => { state with intent := some "ableton_question" }
    | .ok (some content) =>
      if content = "" then { state with intent := some "ableton_question" }
      else if pyIn "ableton" (pyLower (pyStrip content)) then
        { state with intent := some "ableton_question" }
      else { state with intent := some "other" }

/-- `check_ableton_version`: skip when the user chose to proceed anyway or a
verdict exists; otherwise consult the versions index and the external
verdict, defaulting to allowed. -/
noncomputable def check_ableton_version (state : AgentState) (store : RAGStore)
    (embedF : String → List ℝ) (hasClient : Bool) (res : Except Unit VerdictJson) : AgentState :=
  let user_choice := pyLower (state.user_choice.getD "")
  if pyIn "try anyway" user_choice || pyIn "all the same" user_choice ||
      pyIn "proceed anyway" user_choice then
    { state with allowed := some true }
  else if state.allowed ≠ none then state
  else
    let query_embedding := embedF state.user_query
    let results := RAGStore.retrieve store query_embedding state.ableton_edition 2
    if results.versions.isEmpty then { state with allowed := some true }
    else if ¬hasClient then { state with allowed := some true }
    else
      match res with
      | .error _ => { state with allowed := some true }
      | .ok r =>
        { state with allowed := some (r.allowed.getD true), version_explanation := r.explanation }

/-- `wait_for_version_choice`: if a choice is already present, clear
`action_required` and continue; otherwise pause with the two options (the
`.get` default for the explanation is dead because the key always exists;
an explanation of `None` renders as "None" in the f-string). -/
def wait_for_version_choice (state : AgentState) : AgentState :=
  if truthyS state.user_choice then { state with action_required := none }
  else
    { state with
      action_required := some "wait_version_choice",
      response_text := some
        ("⚠️ In the current version (" ++ state.ableton_edition ++
         ") this will likely not work due to limitations: " ++
         pyFormatOpt state.version_explanation ++
         "\n\nChoose an action:\n1. Try anyway\n2. Formulate a new task") }

/-- `retrieve_from_vectorstore`: embed the query and store the full-manual
results as the selected chunks. -/
noncomputable def retrieve_from_vectorstore (state : AgentState) (store : RAGStore)
    (embedF : String → List ℝ) : AgentState :=
  let query_embedding := embedF state.user_query
  let results := RAGStore.retrieve store query_embedding state.ableton_edition 5
  { state with selected_chunks := results.full }

/-- Normalisation of a raw step in mode 1 (`generate_full_answer`, chunk
path): a missing `requires_click` defaults to `False`, a missing
`button_coords` to `None`. -/
def normalizeStepMode1 (raw : RawStep) : Step :=
  { text := raw.text,
    requires_click := raw.requires_click.getD false,
    button_coords := raw.button_coords.join }

/-- Normalisation of a raw step in mode 2 (`generate_full_answer`, existing
answer path): a missing `requires_click` defaults to the keyword heuristic
on the lowercased step text. -/
def normalizeStepMode2 (raw : RawStep) : Step :=
  { text := raw.text,
    requires_click := raw.requires_click.getD
      (anyKeyword ["click", "press", "select", "choose", "open"] (pyLower (raw.text.getD ""))),
    button_coords := raw.button_coords.join }

/-- `generate_full_answer`. Mode 2 (an existing non-empty answer and no
chunks): segment the answer and re-assign the original answer text; mode 1:
generate from chunks. Prompt construction feeds only the external call and
is absorbed into the oracle; every exception path is the `.error` case. -/
def generate_full_answer (state : AgentState) (hasClient : Bool)
    (res : Except String GenResult) : AgentState :=
  let chunks := state.selected_chunks
  let existing_answer := state.full_answer
  if truthyS existing_answer && chunks.isEmpty then
    if ¬hasClient then { state with steps := [] }
    else
      match res with
      | .error _ => { state with steps := [] }
      | .ok r =>
        { state with
          full_answer := existing_answer,
          steps := (r.steps.getD []).map normalizeStepMode2 }
  else
    if ¬hasClient then
      { state with full_answer := some "OpenAI client not available.", steps := [] }
    else
      match res with
      | .error e =>
        { state with full_answer := some ("Error generating answer: " ++ e), steps := [] }
      | .ok r =>
        { state with
          full_answer := some (r.explanation.getD ""),
          steps := (r.steps.getD []).map normalizeStepMode1 }

/-- `wait_for_user_step_choice`: process an existing choice (negative ends
with a closing message, anything else just clears `action_required`), or
pause presenting the answer (plus the yes/no prompt when steps exist). -/
def wait_for_user_step_choice (state : AgentState) : AgentState :=
  let user_choice := pyLower (state.user_choice.getD "")
  if user_choice ≠ "" then
    if pyIn "no" user_choice || pyIn "thanks" user_choice || pyIn "thank you" user_choice then
      { state with
        action_required := none, mode := "simple",
        response_text := some "Okay, feel free to ask if you need help!" }
    else if pyIn "yes" user_choice || pyIn "show" user_choice || pyIn "start" user_choice then
      { state with action_required := none }
    else { state with action_required := none }
  else
    if state.steps ≠ [] then
      { state with
        action_required := some "wait_step_choice", mode := "simple",
        response_text := some (pyFormatOpt state.full_answer ++
          "\n\nWould you like me to show this step-by-step? (yes/no)") }
    else
      { state with
        action_required := some "wait_step_choice", mode := "simple",
        response_text := state.full_answer }

/-- `step_agent_start`: enter step-by-step mode at step 0 and present the
first step. -/
def step_agent_start (state : AgentState) : AgentState :=
  match state.steps with
  | [] => { state with response_text := some "No steps to execute." }
  | first_step :: _ =>
    { state with
      mode := "step_by_step", current_step_index := 0,
      response_text := some ("Step 1 of " ++ toString state.steps.length ++ ":\n" ++
        first_step.text.getD "") }

/-- `detect_interaction_type`: classify whether the current step needs a
click, writing `requires_click` into the current step record in place. -/
def detect_interaction_type (state : AgentState) (hasClient : Bool)
    (res : Except Unit (Option Bool)) : AgentState :=
  if state.steps = [] ∨ state.current_step_index ≥ (state.steps.length : Int) then state
  else
    match pyGet state.steps state.current_step_index with
    | none => { state with raised := true }
    | some current_step =>
      let step_text := current_step.text.getD ""
      if ¬hasClient then
        let requires_click :=
          if step_text ≠ "" then
            anyKeyword ["click", "button", "menu", "select"] (pyLower step_text)
          else false
        let current_step' := { current_step with requires_click := requires_click }
        { state with steps := pySet state.steps state.current_step_index current_step' }
      else
        match res with
        | .ok rc =>
          let current_step' := { current_step with requires_click := rc.getD false }
          { state with steps := pySet state.steps state.current_step_index current_step' }
        | .error _ =>
          let requires_click :=
            if step_text ≠ "" then
              anyKeyword ["click", "button", "menu"] (pyLower step_text)
            else false
          let current_step' := { current_step with requires_click := requires_click }
          { state with steps := pySet state.steps state.current_step_index current_step' }

/-- `analyze_screenshot_for_button`: locate the control for the current
step; every parse/IO failure leaves the coordinates absent. -/
def analyze_screenshot_for_button (state : AgentState) (hasClient : Bool)
    (fileExists : String → Bool) (res : VisionBtn) : AgentState :=
  if state.steps = [] ∨ state.current_step_index ≥ (state.steps.length : Int) then state
  else
    match pyGet state.steps state.current_step_index with
    | none => { state with raised := true }
    | some current_step =>
      if ¬truthyS state.screenshot_url ∨ ¬hasClient then
        { state with response_text := some "Screenshot not provided or client unavailable." }
      else if ¬fileExists (state.screenshot_url.getD "") then
        { state with response_text := some "Screenshot file not found." }
      else
        let setCoords := fun (c : Option Coords) =>
          let current_step' := { current_step with button_coords := c }
          { state with steps := pySet state.steps state.current_step_index current_step' }
        match res with
        | .err => setCoords none
        | .noJson => setCoords none
        | .json found x y w h =>
          if found.getD true ∧ x.isSome then
            match x, y with
            | some xv, some yv =>
              setCoords (some { x := xv, y := yv, width := w.getD 50, height := h.getD 50 })
            | _, _ => setCoords none
          else setCoords none

/-- `wait_user_action`: pause, presenting the current step (with button
coordinates if known) or "All steps completed.". -/
def wait_user_action (state : AgentState) : AgentState :=
  let state1 := { state with action_required := some "wait_user_action" }
  if state.steps ≠ [] ∧ state.current_step_index < (state.steps.length : Int) then
    match pyGet state.steps state.current_step_index with
    | none => { state1 with raised := true }
    | some current_step =>
      let base := "Step " ++ toString (state.current_step_index + 1) ++ " of " ++
        toString state.steps.length ++ ":\n" ++ current_step.text.getD ""
      match current_step.button_coords with
      | some bc =>
        { state1 with response_text := some (base ++ "\n" ++ "\nButton coordinates: x=" ++
            toString bc.x ++ ", y=" ++ toString bc.y) }
      | none => { state1 with response_text := some base }
  else { state1 with response_text := some "All steps completed." }

/-- `optional_validate_step`: only acts when the current step requires a
click, the user did not skip, a screenshot and client exist, and the vision
verdict is an explicit `valid: false`; then it annotates the presented text
with a warning. -/
def optional_validate_step (state : AgentState) (hasClient : Bool)
    (fileExists : String → Bool) (res : VisionValid) : AgentState :=
  if state.current_step_index ≥ (state.steps.length : Int) then state
  else
    match pyGet state.steps state.current_step_index with
    | none => { state with raised := true }
    | some current_step =>
      if pyIn "skip" (pyLower (state.user_choice.getD "")) then state
      else if ¬current_step.requires_click then state
      else if ¬truthyS state.screenshot_url ∨ ¬hasClient then state
      else if ¬fileExists (state.screenshot_url.getD "") then state
      else
        match res with
        | .err => state
        | .noJson => state
        | .json valid explanation =>
          if valid.getD true then state
          else
            { state with response_text := some ("⚠️ " ++
                explanation.getD "Step was not completed correctly.") }

/-- The Boolean condition under which `optional_validate_step` reaches its
vision API call (used to state that skipping never invokes validation). -/
def validateVisionInvoked (state : AgentState) (hasClient : Bool)
    (fileExists : String → Bool) : Bool :=
  if state.current_step_index ≥ (state.steps.length : Int) then false
  else
    match pyGet state.steps state.current_step_index with
    | none => false
    | some current_step =>
      if pyIn "skip" (pyLower (state.user_choice.getD "")) then false
      else if ¬current_step.requires_click then false
      else if ¬truthyS state.screenshot_url ∨ ¬hasClient then false
      else fileExists (state.screenshot_url.getD "")

/-- `next_step_or_finish`: increment the cursor if a later step exists,
otherwise flag the final confirmation. -/
def next_step_or_finish (state : AgentState) : AgentState :=
  if state.steps ≠ [] ∧ state.current_step_index < (state.steps.length : Int) - 1 then
    { state with current_step_index := state.current_step_index + 1 }
  else { state with action_required := some "wait_task_completion_choice" }

/-- The completion question (the Russian and English table entries in the
source are the identical string, so the language branch is irrelevant). -/
def completionQuestion : String := "Did you manage to solve the task?"

/-- `final_confirmation`: present the current (last) step together with the
completion question and pause. -/
def final_confirmation (state : AgentState) : AgentState :=
  if state.steps ≠ [] ∧ state.current_step_index < (state.steps.length : Int) then
    match pyGet state.steps state.current_step_index with
    | none => { state with raised := true }
    | some last_step =>
      { state with
        response_text := some ("Step " ++ toString (state.current_step_index + 1) ++ " of " ++
          toString state.steps.length ++ ":\n" ++ last_step.text.getD "" ++ "\n\n" ++
          completionQuestion),
        action_required := some "wait_task_completion_choice" }
  else
    { state with
      response_text := some completionQuestion,
      action_required := some "wait_task_completion_choice" }

/-- `fallback_review_steps`: jump the cursor to the first externally flagged
index (unvalidated). A step dict without a "text" key makes the prompt
construction raise `KeyError` inside the `try`, landing in the failure
message. -/
def fallback_review_steps (state : AgentState) (hasClient : Bool)
    (res : Except Unit (Option (List Int))) : AgentState :=
  if ¬hasClient then { state with response_text := some "Failed to analyze steps." }
  else if state.steps.any (fun st => st.text.isNone) then
    { state with response_text := some "Failed to identify problematic steps." }
  else
    match res with
    | .error _ => { state with response_text := some "Failed to identify problematic steps." }
    | .ok problematicOpt =>
      match problematicOpt.getD [] with
      | [] => { state with response_text := some "All steps completed correctly." }
      | first_problematic :: _ =>
        { state with
          current_step_index := first_problematic,
          mode := "step_by_step",
          response_text := some ("Let's start from step " ++ toString (first_problematic + 1) ++
            ".") }

/-! ## Routing functions (`workflow.py`) -/

/-- `should_continue_after_intent`. -/
def should_continue_after_intent (state : AgentState) : String :=
  if state.intent = some "ableton_question" then "check_version" else "end"

/-- Python truthiness of `state.get("allowed", True)` when the key is
present: `None` and `False` are falsy. -/
def truthyB : Option Bool → Bool
  | none => false
  | some b => b

/-- `should_continue_after_version_check` (an `allowed` of `None` is falsy,
so it routes to the version-choice gate). -/
def should_continue_after_version_check (state : AgentState) : String :=
  if ¬truthyB state.allowed then "wait_version_choice" else "retrieve"

/-- `should_continue_after_version_choice`. -/
def should_continue_after_version_choice (state : AgentState) : String :=
  let user_choice := pyLower (state.user_choice.getD "")
  if pyIn "new task" user_choice || pyIn "cancel" user_choice then "end" else "retrieve"

/-- `should_continue_after_step_choice`: only a reply containing "yes"
routes to `step_agent`; everything else routes to `end`. -/
def should_continue_after_step_choice (state : AgentState) : String :=
  if pyIn "yes" (pyLower (state.user_choice.getD "")) then "step_agent" else "end"

/-- `should_continue_after_interaction_type`; `none` models the uncaught
`IndexError` of `steps[current_index]` on an index below `-len(steps)`. -/
def should_continue_after_interaction_type (state : AgentState) : Option String :=
  if state.steps ≠ [] ∧ state.current_step_index < (state.steps.length : Int) then
    match pyGet state.steps state.current_step_index with
    | none => none
    | some current_step =>
      some (if current_step.requires_click then "analyze_screenshot" else "wait_action")
  else some "wait_action"

/-- `should_continue_after_user_action`: cancel wins over skip; anything
else validates first. -/
def should_continue_after_user_action (state : AgentState) : String :=
  let user_choice := pyLower (state.user_choice.getD "")
  if pyIn "cancel" user_choice then "end"
  else if pyIn "skip" user_choice then "next_step"
  else "validate"

/-- `should_continue_after_next_step`. -/
def should_continue_after_next_step (state : AgentState) : String :=
  if state.steps ≠ [] ∧ state.current_step_index < (state.steps.length : Int) then
    "detect_interaction"
  else "final_confirmation"

/-- `should_continue_after_final_confirmation`. -/
def should_continue_after_final_confirmation (state : AgentState) : String :=
  let user_choice := pyLower (state.user_choice.getD "")
  if pyIn "yes" user_choice || pyIn "solved" user_choice || pyIn "done" user_choice then "end"
  else "fallback"

/-! ## The stage graph and the per-turn executor (`workflow.create_workflow`
and the `/chat` stream loop in `main.py`) -/

/-- The graph nodes of `create_workflow`. -/
inductive Node where
  | detect_intent
  | check_version
  | wait_version_choice
  | retrieveNode
  | generate_answer
  | wait_step_choice
  | step_agent
  | detect_interaction
  | analyze_screenshot
  | wait_action
  | validate
  | next_step
  | final_confirmationNode
  | fallback
deriving DecidableEq

/-- Execute one node on the state, drawing external outcomes from the
oracle (iteration-indexed where a node can run more than once per turn). -/
noncomputable def applyNode (ext : ExtOracle) (iter : Nat) : Node → AgentState → AgentState
  | .detect_intent, s => detect_user_intent s ext.hasClient ext.intentRes
  | .check_version, s => check_ableton_version s ext.store ext.embedding ext.hasClient ext.versionRes
  | .wait_version_choice, s => wait_for_version_choice s
  | .retrieveNode, s => retrieve_from_vectorstore s ext.store ext.embedding
  | .generate_answer, s => generate_full_answer s ext.hasClient ext.genRes
  | .wait_step_choice, s => wait_for_user_step_choice s
  | .step_agent, s => step_agent_start s
  | .detect_interaction, s => detect_interaction_type s ext.hasClient (ext.interactionRes iter)
  | .analyze_screenshot, s =>
      analyze_screenshot_for_button s ext.hasClient ext.fileExists (ext.visionBtnRes iter)
  | .wait_action, s => wait_user_action s
  | .validate, s => optional_validate_step s ext.hasClient ext.fileExists (ext.validateRes iter)
  | .next_step, s => next_step_or_finish s
  | .final_confirmationNode, s => final_confirmation s
  | .fallback, s => fallback_review_steps s ext.hasClient (ext.fallbackRes iter)

/-- The edges of `create_workflow`: the node to run after `n` produced
state `s`. Outer `none` models an exception inside a conditional edge;
`some none` is `END`. -/
def route (n : Node) (s : AgentState) : Option (Option Node) :=
  match n with
  | .detect_intent =>
    some (if should_continue_after_intent s = "check_version" then some .check_version else none)
  | .check_version =>
    some (if should_continue_after_version_check s = "wait_version_choice" then
      some .wait_version_choice else some .retrieveNode)
  | .wait_version_choice =>
    some (if should_continue_after_version_choice s = "end" then none else some .retrieveNode)
  | .retrieveNode => some (some .generate_answer)
  | .generate_answer => some (some .wait_step_choice)
  | .wait_step_choice =>
    some (if should_continue_after_step_choice s = "step_agent" then some .step_agent else none)
  | .step_agent => some (some .detect_interaction)
  | .detect_interaction =>
    match should_continue_after_interaction_type s with
    | none => none
    | some r => some (if r = "analyze_screenshot" then some .analyze_screenshot
        else some .wait_action)
  | .analyze_screenshot => some (some .wait_action)
  | .wait_action =>
    some (if should_continue_after_user_action s = "end" then none
      else if should_continue_after_user_action s = "next_step" then some .next_step
      else some .validate)
  | .validate => some (some .next_step)
  | .next_step =>
    some (if should_continue_after_next_step s = "detect_interaction" then
      some .detect_interaction else some .final_confirmationNode)
  | .final_confirmationNode =>
    some (if should_continue_after_final_confirmation s = "end" then none else some .fallback)
  | .fallback => some (some .step_agent)

/-- `main.py` `/chat`: `max_iterations = 20`. -/
def max_iterations : Nat := 20

/-- The `/chat` stream-consumption loop: run nodes from `n`, counting
iterations; stop on an uncaught exception (`raised`/routing failure), on a
set `action_required`, on reaching `max_iterations`, or at graph `END`.
Returns the final state, the iteration count, and whether an exception
aborted the turn. The fuel always equals `max_iterations - iter`, so the
fuel-exhaustion branch is unreachable. -/
noncomputable def runGraph (ext : ExtOracle) : Nat → Node → AgentState → Nat →
    AgentState × Nat × Bool
  | 0, _, s, iter => (s, iter, false)
  | fuel + 1, n, s, iter =>
    let s' := applyNode ext iter n s
    let iter' := iter + 1
    if s'.raised then (s', iter', true)
    else if s'.action_required ≠ none ∨ max_iterations ≤ iter' then (s', iter', false)
    else
      match route n s' with
      | none => (s', iter', true)
      | some none => (s', iter', false)
      | some (some n') => runGraph ext fuel n' s' iter'

/-- One `/chat` turn over the workflow graph, from the entry point. -/
noncomputable def runTurn (s : AgentState) (ext : ExtOracle) : AgentState × Nat × Bool :=
  runGraph ext max_iterations .detect_intent s 0

/-- The response text the `/chat` endpoint sends back
(`result.get("response_text") or result.get("full_answer") or "No response
generated."`); `none` models the HTTP 500 on an uncaught exception. -/
noncomputable def chatTurnResponse (s : AgentState) (ext : ExtOracle) : Option String :=
  let r := runTurn s ext
  if r.2.2 then none
  else some (truthyOrS r.1.response_text (truthyOrS r.1.full_answer "No response generated."))

/-! ## The `/step` endpoint (`main.py`) -/

/-- The `StepResponse` schema of the `/step` endpoint. -/
structure StepResponse where
  step_text : String
  step_index : Int
  total_steps : Nat
  requires_click : Bool
  button_coords : Option Coords
  action_required : Option String
deriving DecidableEq

/-- HTTP outcome of a `/step` call: 400 ("No more steps"), 500 (uncaught
exception), or a `StepResponse`. -/
inductive StepOut where
  | badRequest
  | serverError
  | ok (r : StepResponse)
deriving DecidableEq

/-- Result of a modelled `/step` call: the HTTP outcome, the stored session
afterwards, and whether `optional_validate_step` reached its vision call. -/
structure StepResult where
  out : StepOut
  session : AgentState
  visionValidationCalled : Bool

/-- `/step`: `yes_keywords`. -/
def yes_keywords : List String :=
  ["yes", "solved", "done", "completed", "finished", "managed", "succeeded"]

/-- `/step`: `no_keywords`. -/
def no_keywords : List String :=
  ["no", "failed", "didn't", "couldn't", "unable", "not solved"]

/-- Fallback step record for list reads that cannot fail (Python reads the
dict through an alias that always exists). -/
def defaultStep : Step := { text := none, requires_click := false, button_coords := none }

/-- Positional constructor for `StepResponse`. -/
def mkStepResponse (t : String) (i : Int) (n : Nat) (rc : Bool) (bc : Option Coords)
    (ar : Option String) : StepResponse :=
  { step_text := t, step_index := i, total_steps := n, requires_click := rc,
    button_coords := bc, action_required := ar }

/-- Positional constructor for `StepResult`. -/
def mkStepResult (o : StepOut) (s : AgentState) (v : Bool) : StepResult :=
  { out := o, session := s, visionValidationCalled := v }

/-- `/step`, lines 360-451: handling of the completion question when
`next_step_or_finish` flagged `wait_task_completion_choice`. -/
noncomputable def step_completion_branch (steps : List Step) (user_action : String)
    (session1 : AgentState) (ext : ExtOracle) (visionCalled : Bool) : StepResult :=
  let user_choice_lower := pyLower user_action
  let is_yes := anyKeyword yes_keywords user_choice_lower
  let is_no := anyKeyword no_keywords user_choice_lower
  if is_yes then
    mkStepResult (.ok (mkStepResponse
      "Great! Task completed. If you need help with anything else, just ask!"
      ((steps.length : Int) - 1) steps.length false none none))
      { session1 with action_required := none, mode := "simple" } visionCalled
  else if is_no then
    let session2 :=
      { session1 with
        current_step_index := 0
        action_required := some "wait_user_action" }
    let first_step := (pyGet steps 0).getD defaultStep
    let first_step_text := "Step 1 of " ++ toString steps.length ++ ":\n" ++
      first_step.text.getD ""
    let dres := detect_interaction_type session2 ext.hasClient (ext.interactionRes 0)
    let first_step' := (pyGet dres.steps 0).getD first_step
    mkStepResult (.ok (mkStepResponse first_step_text 0 steps.length
      first_step'.requires_click first_step'.button_coords
      (some "wait_user_action"))) dres visionCalled
  else
    let last_step := (pyGet steps (-1)).getD defaultStep
    mkStepResult (.ok (mkStepResponse
      ("Step " ++ toString steps.length ++ " of " ++ toString steps.length ++
       ":\n" ++ last_step.text.getD "" ++ "\n\n" ++ completionQuestion)
      ((steps.length : Int) - 1) steps.length false none
      (some "wait_task_completion_choice"))) session1 visionCalled

/-- `/step`, lines 453-522: the force-increment safeguard and presentation
of the next step (or the final confirmation on the last step). -/
noncomputable def step_advance_branch (steps : List Step) (current_index : Int)
    (result : AgentState) (ext : ExtOracle) (visionCalled : Bool) : StepResult :=
  let new_index0 := result.current_step_index
  let forced := new_index0 = current_index ∧ current_index < (steps.length : Int) - 1
  let new_index := if forced then current_index + 1 else new_index0
  let result1 := if forced then { result with current_step_index := new_index } else result
  if new_index = (steps.length : Int) - 1 then
    let fres := final_confirmation result1
    mkStepResult (.ok (mkStepResponse (fres.response_text.getD "") new_index
      steps.length false none (some "wait_task_completion_choice"))) fres visionCalled
  else if new_index < (steps.length : Int) ∧ 0 ≤ new_index then
    let dres := detect_interaction_type result1 ext.hasClient (ext.interactionRes 0)
    let next_step := (pyGet dres.steps new_index).getD defaultStep
    mkStepResult (.ok (mkStepResponse
      ("Step " ++ toString (new_index + 1) ++ " of " ++ toString steps.length ++
       ":\n" ++ next_step.text.getD "")
      new_index steps.length next_step.requires_click next_step.button_coords
      (some "wait_user_action"))) dres visionCalled
  else
    mkStepResult (.ok (mkStepResponse "All steps completed."
      ((steps.length : Int) - 1) steps.length false none none))
      { result1 with action_required := none, mode := "simple" } visionCalled

/-- The `/step` endpoint handler (`main.py` lines 287-528) as a pure
function of the stored session, the user action, the optional screenshot,
and the external outcomes. The completion-message tables are collapsed to
their single (identical for "ru"/"en") entries. -/
noncomputable def step_endpoint (session0 : AgentState) (user_action : String)
    (screenshot : Option String) (ext : ExtOracle) : StepResult :=
  let session := { session0 with user_choice := some user_action }
  let session :=
    if truthyS screenshot then { session with screenshot_url := screenshot } else session
  let steps := session.steps
  let current_index := session.current_step_index
  if (steps.length : Int) ≤ current_index then
    mkStepResult .badRequest session false
  else
    match pyGet steps current_index with
    | none => mkStepResult .serverError session false
    | some _current_step =>
      if pyIn "cancel" (pyLower user_action) then
        mkStepResult (.ok (mkStepResponse "Task cancelled." current_index steps.length false
          none none)) session false
      else
        let st := { session with mode := "step_by_step", response_text := none }
        let isSkip := pyIn "skip" (pyLower user_action)
        let visionCalled :=
          if isSkip then false else validateVisionInvoked st ext.hasClient ext.fileExists
        let result :=
          if isSkip then next_step_or_finish st
          else next_step_or_finish
            (optional_validate_step st ext.hasClient ext.fileExists (ext.validateRes 0))
        if result.raised then mkStepResult .serverError result visionCalled
        else
          if result.action_required = some "wait_task_completion_choice" then
            step_completion_branch steps user_action result ext visionCalled
          else
            step_advance_branch steps current_index result ext visionCalled

/-! ## Shared helper lemmas and concrete oracles -/

/-- A benign oracle with a present client and empty indexes, used for
concrete instantiations. -/
def plainExt : ExtOracle :=
  { hasClient := true, fileExists := fun _ => false, embedding := fun _ => [],
    store := { full_index := [], versions_index := [] },
    intentRes := .ok (some "ableton_question"), versionRes := .error (), genRes := .error "down",
    interactionRes := fun _ => .error (), visionBtnRes := fun _ => .err,
    validateRes := fun _ => .err, fallbackRes := fun _ => .error () }

/-- The same oracle without an OpenAI client. -/
def noClientExt : ExtOracle := { plainExt with hasClient := false }

theorem pySet_length {α : Type} (l : List α) (i : Int) (a : α) :
    (pySet l i a).length = l.length := by
  unfold pySet
  cases pyIdx l.length i <;> simp

theorem pyIdx_of_nonneg_lt {n : Nat} {i : Int} (h0 : 0 ≤ i) (h : i < (n : Int)) :
    pyIdx n i = some i.toNat := by
  simp [pyIdx, h0, h]

theorem pyGet_isSome_of_nonneg_lt {α : Type} {l : List α} {i : Int} (h0 : 0 ≤ i)
    (h : i < (l.length : Int)) : (pyGet l i).isSome := by
  have ht : i.toNat < l.length := by omega
  simp [pyGet, pyIdx_of_nonneg_lt h0 h, List.getElem?_eq_getElem ht]

theorem pyGet_zero_cons {α : Type} (a : α) (l : List α) : pyGet (a :: l) 0 = some a := by
  simp [pyGet, pyIdx]

theorem append_ne_empty_left {s : String} (t : String) (h : s ≠ "") : s ++ t ≠ "" := by
  intro hc
  apply h
  have hd : s.data ++ t.data = [] := by
    have := congrArg String.data hc
    simpa using this
  cases s with
  | mk d => cases d <;> simp_all

theorem append_ne_empty_right {t : String} (s : String) (h : t ≠ "") : s ++ t ≠ "" := by
  intro hc
  apply h
  have hd : s.data ++ t.data = [] := by
    have := congrArg String.data hc
    simpa using this
  cases t with
  | mk d =>
    cases d with
    | nil => rfl
    | cons a l => simp_all

theorem top_matches_nil (q : List ℝ) (k : Nat) : top_matches [] q k = [] := by
  simp [top_matches]

theorem retrieve_empty (q : List ℝ) (ed : String) (k : Nat) :
    RAGStore.retrieve { full_index := [], versions_index := [] } q ed k =
      { full := [], versions := [] } := by
  simp [RAGStore.retrieve, top_matches_nil]

/-! ## C6: the step-choice gate -/

/-- C6 counterexample: the reply "sure" is not recognised as a negative
(it contains neither "no" nor "thanks"), yet `should_continue_after_step_choice`
routes it to "end", not to step delivery. -/
theorem step_choice_gate_counterexample :
    pyIn "no" (pyLower "sure") = false ∧ pyIn "thanks" (pyLower "sure") = false ∧
    should_continue_after_step_choice { user_choice := some "sure" } = "end" := by
  refine ⟨by decide, by decide, ?_⟩
  simp [should_continue_after_step_choice, pyLower, pyIn, hasSub]

/-- The lowercasing of a non-empty string is non-empty. -/
theorem pyLower_eq_empty_iff (c : String) : pyLower c = "" ↔ c = "" := by
  cases c with
  | mk d => cases d <;> simp [pyLower, String.ext_iff]

/-- C6 amended: the step-choice gate proceeds to `step_agent` exactly when
the lowercased reply contains "yes"; every other reply (recognised negative
or not) routes to "end". On any non-empty reply the node handler clears
`action_required` so the router decides the outcome. -/
theorem step_choice_gate_amended (s : AgentState) :
    (should_continue_after_step_choice s = "step_agent" ↔
      pyIn "yes" (pyLower (s.user_choice.getD "")) = true) ∧
    (should_continue_after_step_choice s = "end" ↔
      pyIn "yes" (pyLower (s.user_choice.getD "")) = false) ∧
    (truthyS s.user_choice = true → (wait_for_user_step_choice s).action_required = none) := by
  refine ⟨?_, ?_, ?_⟩
  · unfold should_continue_after_step_choice
    split <;> simp_all
  · unfold should_continue_after_step_choice
    split <;> simp_all
  · intro h
    have hne : pyLower (s.user_choice.getD "") ≠ "" := by
      cases hu : s.user_choice with
      | none => rw [hu] at h; simp [truthyS] at h
      | some c =>
        rw [hu] at h
        simp only [truthyS, bne_iff_ne, ne_eq] at h
        simp only [Option.getD_some]
        exact fun hc => h ((pyLower_eq_empty_iff c).mp hc)
    simp only [wait_for_user_step_choice]
    rw [if_pos hne]
    split
    · rfl
    · split <;> rfl

/-- C6 witness: a "yes" reply routes to step delivery. -/
theorem step_choice_gate_amended_witness :
    should_continue_after_step_choice { user_choice := some "yes" } = "step_agent" ∧
    (wait_for_user_step_choice { user_choice := some "yes" }).action_required = none := by
  refine ⟨?_, ?_⟩
  · exact (step_choice_gate_amended { user_choice := some "yes" }).1.mpr (by decide)
  · exact (step_choice_gate_amended { user_choice := some "yes" }).2.2 (by decide)

/-! ## C4: mode-2 answer preservation -/

/-- C4: in mode 2 (a non-empty pre-supplied answer, no retrieved chunks),
`generate_full_answer` leaves the stored answer byte-for-byte equal to the
pre-supplied text, for every client availability and external outcome
(success with arbitrary segmentation, malformed JSON, or exception). -/
theorem mode2_answer_preserved (s : AgentState) (a : String) (hasClient : Bool)
    (res : Except String GenResult) (ha : s.full_answer = some a) (hne : a ≠ "")
    (hchunks : s.selected_chunks = []) :
    (generate_full_answer s hasClient res).full_answer = some a := by
  unfold generate_full_answer
  rw [ha, hchunks]
  rw [if_pos (by simp [truthyS, hne] : (truthyS (some a) && List.isEmpty []) = true)]
  cases hasClient <;> cases res <;> simp

/-- C4 witness: a concrete mode-2 call with a successful (re-worded)
segmentation outcome preserves the answer exactly. -/
theorem mode2_answer_preserved_witness :
    (generate_full_answer { full_answer := some "Drag the reverb onto the track." } true
      (.ok { explanation := some "something else entirely",
             steps := some [{ text := some "reworded step", requires_click := none,
                              button_coords := none }] })).full_answer =
      some "Drag the reverb onto the track." :=
  mode2_answer_preserved _ "Drag the reverb onto the track." _ _ rfl (by decide) rfl

/-! ## C1: the cursor invariant -/

/-- The claimed invariant: `0 <= current_step_index <= len(steps)`. -/
abbrev cursorInv (s : AgentState) : Prop :=
  0 ≤ s.current_step_index ∧ s.current_step_index ≤ (s.steps.length : Int)

/-- A one-step session record used in concrete instantiations. -/
def stepOpenMenu : Step :=
  { text := some "Open the menu", requires_click := false, button_coords := none }

/-- A session state holding exactly one step, cursor at 0. -/
def oneStepState : AgentState := { steps := [stepOpenMenu] }

theorem detect_user_intent_frame (s : AgentState) (hc : Bool) (r : Except Unit (Option String)) :
    (detect_user_intent s hc r).current_step_index = s.current_step_index ∧
    (detect_user_intent s hc r).steps = s.steps := by
  simp only [detect_user_intent]
  repeat' split
  all_goals simp

theorem check_ableton_version_frame (s : AgentState) (store : RAGStore) (e : String → List ℝ)
    (hc : Bool) (r : Except Unit VerdictJson) :
    (check_ableton_version s store e hc r).current_step_index = s.current_step_index ∧
    (check_ableton_version s store e hc r).steps = s.steps := by
  simp only [check_ableton_version]
  repeat' split
  all_goals simp

theorem wait_for_version_choice_frame (s : AgentState) :
    (wait_for_version_choice s).current_step_index = s.current_step_index ∧
    (wait_for_version_choice s).steps = s.steps := by
  simp only [wait_for_version_choice]
  repeat' split
  all_goals simp

theorem retrieve_from_vectorstore_frame (s : AgentState) (store : RAGStore)
    (e : String → List ℝ) :
    (retrieve_from_vectorstore s store e).current_step_index = s.current_step_index ∧
    (retrieve_from_vectorstore s store e).steps = s.steps := by
  simp [retrieve_from_vectorstore]

theorem wait_for_user_step_choice_frame (s : AgentState) :
    (wait_for_user_step_choice s).current_step_index = s.current_step_index ∧
    (wait_for_user_step_choice s).steps = s.steps := by
  simp only [wait_for_user_step_choice]
  repeat' split
  all_goals simp

theorem wait_user_action_frame (s : AgentState) :
    (wait_user_action s).current_step_index = s.current_step_index ∧
    (wait_user_action s).steps = s.steps := by
  simp only [wait_user_action]
  repeat' split
  all_goals simp

theorem optional_validate_step_frame (s : AgentState) (hc : Bool) (f : String → Bool)
    (r : VisionValid) :
    (optional_validate_step s hc f r).current_step_index = s.current_step_index ∧
    (optional_validate_step s hc f r).steps = s.steps := by
  simp only [optional_validate_step]
  repeat' split
  all_goals simp

theorem final_confirmation_frame (s : AgentState) :
    (final_confirmation s).current_step_index = s.current_step_index ∧
    (final_confirmation s).steps = s.steps := by
  simp only [final_confirmation]
  repeat' split
  all_goals simp

theorem detect_interaction_type_frame (s : AgentState) (hc : Bool)
    (r : Except Unit (Option Bool)) :
    (detect_interaction_type s hc r).current_step_index = s.current_step_index ∧
    (detect_interaction_type s hc r).steps.length = s.steps.length := by
  simp only [detect_interaction_type]
  repeat' split
  all_goals simp [pySet_length]

theorem analyze_screenshot_for_button_frame (s : AgentState) (hc : Bool) (f : String → Bool)
    (r : VisionBtn) :
    (analyze_screenshot_for_button s hc f r).current_step_index = s.current_step_index ∧
    (analyze_screenshot_for_button s hc f r).steps.length = s.steps.length := by
  simp only [analyze_screenshot_for_button]
  repeat' split
  all_goals simp [pySet_length]

theorem step_agent_start_frame (s : AgentState) :
    ((step_agent_start s).current_step_index = s.current_step_index ∨
      (step_agent_start s).current_step_index = 0) ∧
    (step_agent_start s).steps = s.steps := by
  simp only [step_agent_start]
  split
  · exact ⟨Or.inl rfl, rfl⟩
  · exact ⟨Or.inr rfl, rfl⟩

theorem next_step_or_finish_cursor (s : AgentState) :
    (next_step_or_finish s).steps = s.steps ∧
    ((s.steps ≠ [] ∧ s.current_step_index < (s.steps.length : Int) - 1 ∧
        (next_step_or_finish s).current_step_index = s.current_step_index + 1) ∨
      (¬(s.steps ≠ [] ∧ s.current_step_index < (s.steps.length : Int) - 1) ∧
        (next_step_or_finish s).current_step_index = s.current_step_index)) := by
  simp only [next_step_or_finish]
  split
  · rename_i hcond
    exact ⟨rfl, Or.inl ⟨hcond.1, hcond.2, rfl⟩⟩
  · rename_i hcond
    exact ⟨rfl, Or.inr ⟨hcond, rfl⟩⟩

/-- C1 counterexample: `fallback_review_steps` writes the externally
supplied step index into the cursor without any bounds check, so a
flagged-steps response of `[5]` on a one-step session drives the cursor to
5 > len(steps), violating the invariant right after a stage handler ran. -/
theorem cursor_invariant_counterexample :
    cursorInv oneStepState ∧
    (fallback_review_steps oneStepState true (.ok (some [5]))).current_step_index = 5 ∧
    (fallback_review_steps oneStepState true (.ok (some [5]))).steps.length = 1 ∧
    ¬ cursorInv (fallback_review_steps oneStepState true (.ok (some [5]))) := by
  refine ⟨by decide, by decide, by decide, by decide⟩

/-- C1 amended: every stage handler preserves
`0 <= current_step_index <= len(steps)` except `fallback_review_steps`,
which needs the externally flagged index to be in range, and
`generate_full_answer`, which replaces the step list and so needs the old
cursor to still be within the new list's bounds. -/
theorem cursor_invariant_amended :
    (∀ s hc r, cursorInv s → cursorInv (detect_user_intent s hc r)) ∧
    (∀ s store e hc r, cursorInv s → cursorInv (check_ableton_version s store e hc r)) ∧
    (∀ s, cursorInv s → cursorInv (wait_for_version_choice s)) ∧
    (∀ s store e, cursorInv s → cursorInv (retrieve_from_vectorstore s store e)) ∧
    (∀ s hc r, cursorInv s →
      s.current_step_index ≤ ((generate_full_answer s hc r).steps.length : Int) →
      cursorInv (generate_full_answer s hc r)) ∧
    (∀ s, cursorInv s → cursorInv (wait_for_user_step_choice s)) ∧
    (∀ s, cursorInv s → cursorInv (step_agent_start s)) ∧
    (∀ s hc r, cursorInv s → cursorInv (detect_interaction_type s hc r)) ∧
    (∀ s hc f r, cursorInv s → cursorInv (analyze_screenshot_for_button s hc f r)) ∧
    (∀ s, cursorInv s → cursorInv (wait_user_action s)) ∧
    (∀ s hc f r, cursorInv s → cursorInv (optional_validate_step s hc f r)) ∧
    (∀ s, cursorInv s → cursorInv (next_step_or_finish s)) ∧
    (∀ s, cursorInv s → cursorInv (final_confirmation s)) ∧
    (∀ s hc r i rest, cursorInv s → r = Except.ok (some (i :: rest)) → 0 ≤ i →
      i ≤ (s.steps.length : Int) → cursorInv (fallback_review_steps s hc r)) := by
  refine ⟨?_, ?_, ?_, ?_, ?_, ?_, ?_, ?_, ?_, ?_, ?_, ?_, ?_, ?_⟩
  · intro s hc r h
    have hf := detect_user_intent_frame s hc r
    exact ⟨hf.1 ▸ h.1, by rw [hf.1, hf.2]; exact h.2⟩
  · intro s store e hc r h
    have hf := check_ableton_version_frame s store e hc r
    exact ⟨hf.1 ▸ h.1, by rw [hf.1, hf.2]; exact h.2⟩
  · intro s h
    have hf := wait_for_version_choice_frame s
    exact ⟨hf.1 ▸ h.1, by rw [hf.1, hf.2]; exact h.2⟩
  · intro s store e h
    have hf := retrieve_from_vectorstore_frame s store e
    exact ⟨hf.1 ▸ h.1, by rw [hf.1, hf.2]; exact h.2⟩
  · intro s hc r h hlen
    have hidx : (generate_full_answer s hc r).current_step_index = s.current_step_index := by
      simp only [generate_full_answer]
      repeat' split
      all_goals simp
    exact ⟨hidx ▸ h.1, hidx ▸ hlen⟩
  · intro s h
    have hf := wait_for_user_step_choice_frame s
    exact ⟨hf.1 ▸ h.1, by rw [hf.1, hf.2]; exact h.2⟩
  · intro s h
    have hf := step_agent_start_frame s
    rcases hf.1 with hi | hi
    · exact ⟨hi ▸ h.1, by rw [hi, hf.2]; exact h.2⟩
    · exact ⟨by rw [hi], by rw [hi, hf.2]; exact le_trans h.1 (le_trans h.2 (le_refl _))⟩
  · intro s hc r h
    have hf := detect_interaction_type_frame s hc r
    exact ⟨hf.1 ▸ h.1, by rw [hf.1, hf.2]; exact h.2⟩
  · intro s hc f r h
    have hf := analyze_screenshot_for_button_frame s hc f r
    exact ⟨hf.1 ▸ h.1, by rw [hf.1, hf.2]; exact h.2⟩
  · intro s h
    have hf := wait_user_action_frame s
    exact ⟨hf.1 ▸ h.1, by rw [hf.1, hf.2]; exact h.2⟩
  · intro s hc f r h
    have hf := optional_validate_step_frame s hc f r
    exact ⟨hf.1 ▸ h.1, by rw [hf.1, hf.2]; exact h.2⟩
  · intro s h
    have hf := next_step_or_finish_cursor s
    rcases hf.2 with ⟨_, hlt, hi⟩ | ⟨_, hi⟩
    · refine ⟨by rw [hi]; omega, by rw [hi, hf.1]; omega⟩
    · exact ⟨hi ▸ h.1, by rw [hi, hf.1]; exact h.2⟩
  · intro s h
    have hf := final_confirmation_frame s
    exact ⟨hf.1 ▸ h.1, by rw [hf.1, hf.2]; exact h.2⟩
  · intro s hc r i rest h hr h0 hle
    subst hr
    simp only [fallback_review_steps]
    repeat' split
    all_goals simp_all
    all_goals first
      | exact ⟨h.1, h.2⟩
      | exact ⟨h0, hle⟩

/-- C1 witness: a concrete in-range fallback review and a concrete cursor
advance both preserve the invariant. -/
theorem cursor_invariant_amended_witness :
    cursorInv oneStepState ∧
    cursorInv (fallback_review_steps oneStepState true (.ok (some [1]))) ∧
    cursorInv (next_step_or_finish oneStepState) := by
  refine ⟨by decide, ?_, ?_⟩
  · exact cursor_invariant_amended.2.2.2.2.2.2.2.2.2.2.2.2.2 _ true _ 1 [] (by decide) rfl
      (by decide) (by decide)
  · exact cursor_invariant_amended.2.2.2.2.2.2.2.2.2.2.2.1 _ (by decide)

/-! ## C9: per-turn termination and the iteration cap -/

theorem runGraph_iter_le (ext : ExtOracle) (fuel : Nat) (n : Node) (s : AgentState)
    (iter : Nat) : (runGraph ext fuel n s iter).2.1 ≤ iter + fuel := by
  induction fuel generalizing n s iter with
  | zero => simp [runGraph]
  | succ fuel ih =>
    show (if (applyNode ext iter n s).raised then (applyNode ext iter n s, iter + 1, true)
      else if (applyNode ext iter n s).action_required ≠ none ∨ max_iterations ≤ iter + 1 then
        (applyNode ext iter n s, iter + 1, false)
      else
        match route n (applyNode ext iter n s) with
        | none => (applyNode ext iter n s, iter + 1, true)
        | some none => (applyNode ext iter n s, iter + 1, false)
        | some (some n') => runGraph ext fuel n' (applyNode ext iter n s) (iter + 1)).2.1 ≤
      iter + (fuel + 1)
    split
    · show iter + 1 ≤ iter + (fuel + 1)
      omega
    split
    · show iter + 1 ≤ iter + (fuel + 1)
      omega
    split
    · show iter + 1 ≤ iter + (fuel + 1)
      omega
    · show iter + 1 ≤ iter + (fuel + 1)
      omega
    · exact le_trans (ih _ _ _) (by omega)

/-- C9: every `/chat` turn terminates with at most `max_iterations` (20)
stage executions, and whenever the turn completes without an uncaught
exception the response sent to the user is a non-empty string (falling back
to the generic "No response generated." when no stage produced text). -/
theorem turn_terminates_capped (s : AgentState) (ext : ExtOracle) :
    (runTurn s ext).2.1 ≤ max_iterations ∧
    (∀ r, chatTurnResponse s ext = some r → r ≠ "") := by
  constructor
  · simpa using runGraph_iter_le ext max_iterations .detect_intent s 0
  · intro r hr
    unfold chatTurnResponse at hr
    simp only at hr
    split at hr
    · exact absurd hr (by simp)
    · have : r = truthyOrS (runTurn s ext).1.response_text
          (truthyOrS (runTurn s ext).1.full_answer "No response generated.") := by
        simpa using hr.symm
      subst this
      have hgen : ∀ (a : Option String) (d : String), d ≠ "" → truthyOrS a d ≠ "" := by
        intro a d hd
        rcases a with _ | t
        · simpa [truthyOrS] using hd
        · by_cases ht : t = ""
          · simpa [truthyOrS, ht] using hd
          · simp [truthyOrS, ht]
      exact hgen _ _ (hgen _ _ (by decide))

/-- C9 witness: a concrete turn with no OpenAI client runs 5 stages and
answers with the client-unavailable text, which is non-empty. -/
theorem turn_terminates_capped_witness :
    (runTurn {} noClientExt).2.1 ≤ max_iterations ∧
    chatTurnResponse {} noClientExt = some "OpenAI client not available." ∧
    "OpenAI client not available." ≠ "" := by
  have heval : chatTurnResponse {} noClientExt = some "OpenAI client not available." := by
    simp [chatTurnResponse, runTurn, runGraph, applyNode, route, detect_user_intent,
      check_ableton_version, retrieve_empty, retrieve_from_vectorstore, generate_full_answer,
      wait_for_user_step_choice, should_continue_after_intent, should_continue_after_version_check,
      noClientExt, plainExt, truthyS, truthyB, truthyOrS, pyLower, pyIn, hasSub, max_iterations]
  exact ⟨(turn_terminates_capped {} noClientExt).1, heval,
    (turn_terminates_capped {} noClientExt).2 _ heval⟩

/-! ## C8: awaiting-input stages and non-empty presented text -/

/-- C8 counterexample: with an external generation outcome carrying an
empty explanation and no steps, a fresh `/chat` turn reaches
`wait_for_user_step_choice`, which pauses (`action_required =
"wait_step_choice"`) with `response_text` set to the empty string. The
reachable awaiting state thus has empty presented text (the HTTP layer, not
the stage, substitutes "No response generated."). -/
theorem awaiting_nonempty_counterexample :
    (runTurn {} { plainExt with genRes := .ok { explanation := some "", steps := some [] } }).1.action_required
        = some "wait_step_choice" ∧
    (runTurn {} { plainExt with genRes := .ok { explanation := some "", steps := some [] } }).1.response_text
        = some "" ∧
    (runTurn {} { plainExt with genRes := .ok { explanation := some "", steps := some [] } }).2.2
        = false ∧
    chatTurnResponse {} { plainExt with genRes := .ok { explanation := some "", steps := some [] } }
        = some "No response generated." := by
  refine ⟨?_, ?_, ?_, ?_⟩ <;>
    simp [chatTurnResponse, runTurn, runGraph, applyNode, route, detect_user_intent,
      check_ableton_version, retrieve_empty, retrieve_from_vectorstore, generate_full_answer,
      wait_for_user_step_choice, should_continue_after_intent, should_continue_after_version_check,
      plainExt, truthyS, truthyB, truthyOrS, pyLower, pyIn, hasSub, pyStrip, max_iterations]

/-- C8 amended: every awaiting-input handler produces non-empty presented
text except `wait_for_user_step_choice` in the empty-step-list case, where
it copies the (possibly `None` or empty) stored answer verbatim into
`response_text`. -/
theorem awaiting_nonempty_amended :
    (∀ s, (wait_for_version_choice s).action_required = some "wait_version_choice" →
      ∃ t, (wait_for_version_choice s).response_text = some t ∧ t ≠ "") ∧
    (∀ s, (wait_user_action s).raised = false →
      ∃ t, (wait_user_action s).response_text = some t ∧ t ≠ "") ∧
    (∀ s, (final_confirmation s).raised = false →
      ∃ t, (final_confirmation s).response_text = some t ∧ t ≠ "") ∧
    (∀ s, truthyS s.user_choice = false → s.steps ≠ [] →
      ∃ t, (wait_for_user_step_choice s).response_text = some t ∧ t ≠ "") ∧
    (∀ s, truthyS s.user_choice = false → s.steps = [] →
      (wait_for_user_step_choice s).response_text = s.full_answer) := by
  refine ⟨?_, ?_, ?_, ?_, ?_⟩
  · intro s h
    unfold wait_for_version_choice at h ⊢
    by_cases hc : truthyS s.user_choice = true
    · rw [if_pos hc] at h
      simp at h
    · rw [if_neg hc]
      exact ⟨_, rfl, append_ne_empty_right _ (by decide)⟩
  · intro s h
    unfold wait_user_action at h ⊢
    by_cases h1 : s.steps ≠ [] ∧ s.current_step_index < (s.steps.length : Int)
    · rw [if_pos h1] at h ⊢
      cases hg : pyGet s.steps s.current_step_index with
      | none =>
        rw [hg] at h
        simp at h
      | some cs =>
        cases hb : cs.button_coords with
        | none =>
          refine ⟨"Step " ++ toString (s.current_step_index + 1) ++ " of " ++
            toString s.steps.length ++ ":\n" ++ cs.text.getD "", ?_,
            append_ne_empty_left _ (append_ne_empty_right _ (by decide))⟩
          simp [hb]
        | some bc =>
          refine ⟨("Step " ++ toString (s.current_step_index + 1) ++ " of " ++
            toString s.steps.length ++ ":\n" ++ cs.text.getD "") ++ "\n" ++
            "\nButton coordinates: x=" ++ toString bc.x ++ ", y=" ++ toString bc.y, ?_,
            append_ne_empty_left _ (append_ne_empty_left _ (append_ne_empty_left _
              (append_ne_empty_right _ (by decide))))⟩
          simp [hb]
    · rw [if_neg h1]
      exact ⟨_, rfl, by decide⟩
  · intro s h
    unfold final_confirmation at h ⊢
    by_cases h1 : s.steps ≠ [] ∧ s.current_step_index < (s.steps.length : Int)
    · rw [if_pos h1] at h ⊢
      cases hg : pyGet s.steps s.current_step_index with
      | none =>
        rw [hg] at h
        simp at h
      | some ls =>
        exact ⟨"Step " ++ toString (s.current_step_index + 1) ++ " of " ++
          toString s.steps.length ++ ":\n" ++ ls.text.getD "" ++ "\n\n" ++ completionQuestion,
          by simp, append_ne_empty_right _ (by decide)⟩
    · rw [if_neg h1]
      exact ⟨_, rfl, by decide⟩
  · intro s hu hsteps
    have hne : pyLower (s.user_choice.getD "") = "" := by
      cases hc : s.user_choice with
      | none => simp [pyLower]
      | some c =>
        rw [hc] at hu
        simp only [truthyS, bne_iff_ne, ne_eq, Bool.not_eq_true, Decidable.not_not] at hu
        simp only [Option.getD_some]
        exact (pyLower_eq_empty_iff c).mpr (by simpa using hu)
    unfold wait_for_user_step_choice
    rw [if_neg (by simp [hne])]
    rw [if_pos (by simpa using hsteps)]
    exact ⟨_, rfl, append_ne_empty_right _ (by decide)⟩
  · intro s hu hsteps
    have hne : pyLower (s.user_choice.getD "") = "" := by
      cases hc : s.user_choice with
      | none => simp [pyLower]
      | some c =>
        rw [hc] at hu
        simp only [truthyS, bne_iff_ne, ne_eq, Bool.not_eq_true, Decidable.not_not] at hu
        simp only [Option.getD_some]
        exact (pyLower_eq_empty_iff c).mpr (by simpa using hu)
    unfold wait_for_user_step_choice
    rw [if_neg (by simp [hne])]
    rw [if_neg (by simp [hsteps])]

/-- C8 witness: the user-action pause on a concrete one-step session
presents non-empty text. -/
theorem awaiting_nonempty_amended_witness :
    (wait_user_action oneStepState).raised = false ∧
    (∃ t, (wait_user_action oneStepState).response_text = some t ∧ t ≠ "") := by
  exact ⟨by decide, awaiting_nonempty_amended.2.1 oneStepState (by decide)⟩

/-! ## C5 and C7: further frame lemmas about the `/step` building blocks -/

theorem pySet_map_text (l : List Step) (i : Int) (cur cur' : Step)
    (hget : pyGet l i = some cur) (htext : cur'.text = cur.text) :
    (pySet l i cur').map Step.text = l.map Step.text := by
  unfold pyGet pySet at *
  cases hidx : pyIdx l.length i with
  | none => rfl
  | some j =>
    rw [hidx] at hget
    have hget' : l[j]? = some cur := hget
    show (l.set j cur').map Step.text = l.map Step.text
    rw [List.map_set]
    apply List.ext_getElem?
    intro n
    by_cases hn : j = n
    · subst hn
      have hj : j < l.length := by
        by_contra hnj
        rw [List.getElem?_eq_none (by omega)] at hget'
        simp at hget'
      rw [List.getElem?_set_self (by simpa using hj), List.getElem?_map, hget']
      simp [htext]
    · rw [List.getElem?_set_ne hn]

theorem next_step_or_finish_keeps (s : AgentState) :
    (next_step_or_finish s).steps = s.steps ∧
    (next_step_or_finish s).full_answer = s.full_answer ∧
    (next_step_or_finish s).raised = s.raised ∧
    (next_step_or_finish s).user_choice = s.user_choice ∧
    (next_step_or_finish s).screenshot_url = s.screenshot_url := by
  unfold next_step_or_finish
  split <;> simp

theorem next_step_or_finish_action_of_advance (s : AgentState) (h1 : s.steps ≠ [])
    (h2 : s.current_step_index < (s.steps.length : Int) - 1) :
    (next_step_or_finish s).action_required = s.action_required ∧
    (next_step_or_finish s).current_step_index = s.current_step_index + 1 := by
  unfold next_step_or_finish
  rw [if_pos ⟨h1, h2⟩]
  exact ⟨rfl, rfl⟩

theorem next_step_or_finish_action_of_last (s : AgentState)
    (h2 : ¬(s.steps ≠ [] ∧ s.current_step_index < (s.steps.length : Int) - 1)) :
    (next_step_or_finish s).action_required = some "wait_task_completion_choice" ∧
    (next_step_or_finish s).current_step_index = s.current_step_index := by
  unfold next_step_or_finish
  rw [if_neg h2]
  exact ⟨rfl, rfl⟩

theorem optional_validate_step_keeps (s : AgentState) (hc : Bool) (f : String → Bool)
    (r : VisionValid) :
    (optional_validate_step s hc f r).steps = s.steps ∧
    (optional_validate_step s hc f r).current_step_index = s.current_step_index ∧
    (optional_validate_step s hc f r).full_answer = s.full_answer ∧
    (optional_validate_step s hc f r).action_required = s.action_required ∧
    (optional_validate_step s hc f r).user_choice = s.user_choice := by
  unfold optional_validate_step
  repeat' split
  all_goals simp

theorem optional_validate_step_raised (s : AgentState) (hc : Bool) (f : String → Bool)
    (r : VisionValid) (cur : Step) (hget : pyGet s.steps s.current_step_index = some cur) :
    (optional_validate_step s hc f r).raised = s.raised := by
  unfold optional_validate_step
  repeat' split
  all_goals simp_all

theorem detect_interaction_type_keeps (s : AgentState) (hc : Bool)
    (r : Except Unit (Option Bool)) :
    (detect_interaction_type s hc r).current_step_index = s.current_step_index ∧
    (detect_interaction_type s hc r).full_answer = s.full_answer ∧
    (detect_interaction_type s hc r).action_required = s.action_required ∧
    (detect_interaction_type s hc r).steps.map Step.text = s.steps.map Step.text := by
  refine ⟨(detect_interaction_type_frame s hc r).1, ?_, ?_, ?_⟩ <;>
    unfold detect_interaction_type <;> repeat' split
  all_goals simp_all [pySet_map_text]

/-! ## C5: "skip" advances without validation -/

/-- C5 counterexample: a user decision containing "skip" that also contains
"cancel" does not advance the cursor: the cancel check wins both in the
`/step` endpoint and in the graph router. -/
theorem skip_advances_counterexample :
    pyIn "skip" (pyLower "cancel skip") = true ∧
    (step_endpoint { steps := [stepOpenMenu, stepOpenMenu] } "cancel skip" none plainExt).out =
      .ok (mkStepResponse "Task cancelled." 0 2 false none none) ∧
    (step_endpoint { steps := [stepOpenMenu, stepOpenMenu] } "cancel skip" none
      plainExt).session.current_step_index = 0 ∧
    should_continue_after_user_action { user_choice := some "cancel skip" } = "end" := by
  refine ⟨by decide, ?_, ?_, ?_⟩
  · simp [step_endpoint, plainExt, pyGet, pyIdx, mkStepResult, truthyS]
    decide
  · simp [step_endpoint, plainExt, pyGet, pyIdx, mkStepResult, truthyS]
    decide
  · decide

theorem next_step_or_finish_raised (s : AgentState) :
    (next_step_or_finish s).raised = s.raised := by
  unfold next_step_or_finish
  split <;> rfl

theorem step_completion_branch_vc (steps : List Step) (action : String) (session1 : AgentState)
    (ext : ExtOracle) (vc : Bool) :
    (step_completion_branch steps action session1 ext vc).visionValidationCalled = vc := by
  simp only [step_completion_branch]
  repeat' split
  all_goals rfl

theorem step_advance_branch_vc (steps : List Step) (ci : Int) (result : AgentState)
    (ext : ExtOracle) (vc : Bool) :
    (step_advance_branch steps ci result ext vc).visionValidationCalled = vc := by
  simp only [step_advance_branch]
  repeat' split
  all_goals rfl

theorem final_confirmation_idx (s : AgentState) :
    (final_confirmation s).current_step_index = s.current_step_index :=
  (final_confirmation_frame s).1

theorem detect_interaction_type_idx (s : AgentState) (hc : Bool)
    (r : Except Unit (Option Bool)) :
    (detect_interaction_type s hc r).current_step_index = s.current_step_index :=
  (detect_interaction_type_frame s hc r).1

theorem step_advance_branch_session_index (steps : List Step) (ci : Int)
    (result : AgentState) (ext : ExtOracle) (vc : Bool) :
    (step_advance_branch steps ci result ext vc).session.current_step_index =
      if result.current_step_index = ci ∧ ci < (steps.length : Int) - 1 then ci + 1
      else result.current_step_index := by
  simp only [step_advance_branch]
  split <;> rename_i hforced
  all_goals split
  all_goals try split
  all_goals simp_all [mkStepResult, final_confirmation_idx, detect_interaction_type_idx]

theorem step_completion_branch_unclear (steps : List Step) (action : String)
    (session1 : AgentState) (ext : ExtOracle) (vc : Bool)
    (hyes : anyKeyword yes_keywords (pyLower action) = false)
    (hno : anyKeyword no_keywords (pyLower action) = false) :
    (step_completion_branch steps action session1 ext vc).session = session1 ∧
    (step_completion_branch steps action session1 ext vc).out =
      .ok (mkStepResponse
        ("Step " ++ toString steps.length ++ " of " ++ toString steps.length ++
         ":\n" ++ ((pyGet steps (-1)).getD defaultStep).text.getD "" ++ "\n\n" ++
         completionQuestion)
        ((steps.length : Int) - 1) steps.length false none
        (some "wait_task_completion_choice")) := by
  simp only [step_completion_branch]
  simp only [hyes, hno, Bool.false_eq_true, if_false]
  exact ⟨rfl, rfl⟩

/-- Core of the skip path when a later step exists: the stored cursor
advances by one. Stated over the post-cancel tail of `step_endpoint`. -/
theorem step_skip_core (q : AgentState) (steps : List Step) (ci : Int) (action : String)
    (ext : ExtOracle)
    (hsteps : q.steps = steps) (hidx : q.current_step_index = ci)
    (hact : q.action_required = some "wait_user_action") (hraise : q.raised = false)
    (hne : steps ≠ []) (hlt2 : ci < (steps.length : Int) - 1) :
    (if (next_step_or_finish q).raised then
        mkStepResult .serverError (next_step_or_finish q) false
      else if (next_step_or_finish q).action_required = some "wait_task_completion_choice" then
        step_completion_branch steps action (next_step_or_finish q) ext false
      else
        step_advance_branch steps ci (next_step_or_finish q) ext false).session.current_step_index
      = ci + 1 := by
  have hadv := next_step_or_finish_action_of_advance q (by rw [hsteps]; exact hne)
    (by rw [hidx, hsteps]; exact hlt2)
  rw [if_neg (by rw [next_step_or_finish_raised, hraise]; simp)]
  rw [if_neg (by rw [hadv.1, hact]; simp)]
  rw [step_advance_branch_session_index, hadv.2, hidx]
  split <;> rfl

/-- Core of the skip path at the last step: the cursor stays put and the
completion question is re-presented (for a decision carrying no completion
keywords). -/
theorem step_skip_last (q : AgentState) (steps : List Step) (ci : Int) (action : String)
    (ext : ExtOracle)
    (hsteps : q.steps = steps) (hidx : q.current_step_index = ci)
    (hraise : q.raised = false) (hnot : ¬ ci < (steps.length : Int) - 1)
    (hyes : anyKeyword yes_keywords (pyLower action) = false)
    (hno : anyKeyword no_keywords (pyLower action) = false) :
    (if (next_step_or_finish q).raised then
        mkStepResult .serverError (next_step_or_finish q) false
      else if (next_step_or_finish q).action_required = some "wait_task_completion_choice" then
        step_completion_branch steps action (next_step_or_finish q) ext false
      else
        step_advance_branch steps ci (next_step_or_finish q) ext false).session.current_step_index
      = ci ∧
    ∃ r,
      (if (next_step_or_finish q).raised then
          mkStepResult .serverError (next_step_or_finish q) false
        else if (next_step_or_finish q).action_required = some "wait_task_completion_choice" then
          step_completion_branch steps action (next_step_or_finish q) ext false
        else
          step_advance_branch steps ci (next_step_or_finish q) ext false).out = .ok r ∧
      r.action_required = some "wait_task_completion_choice" := by
  have hlast := next_step_or_finish_action_of_last q (by
    intro hand
    have h2 : q.current_step_index < (q.steps.length : Int) - 1 := hand.2
    rw [hidx, hsteps] at h2
    exact hnot h2)
  have hu := step_completion_branch_unclear steps action (next_step_or_finish q) ext false
    hyes hno
  rw [if_neg (by rw [next_step_or_finish_raised, hraise]; simp)]
  rw [if_pos hlast.1]
  rw [hu.1, hu.2, hlast.2, hidx]
  exact ⟨rfl, _, rfl, rfl⟩

theorem step_completion_branch_no (steps : List Step) (action : String) (session1 : AgentState)
    (ext : ExtOracle) (vc : Bool)
    (hyes : anyKeyword yes_keywords (pyLower action) = false)
    (hno : anyKeyword no_keywords (pyLower action) = true) :
    (step_completion_branch steps action session1 ext vc).session =
      detect_interaction_type
        { session1 with
          current_step_index := 0
          action_required := some "wait_user_action" }
        ext.hasClient (ext.interactionRes 0) ∧
    ∃ r, (step_completion_branch steps action session1 ext vc).out = .ok r ∧
      r.step_index = 0 ∧ r.action_required = some "wait_user_action" ∧
      r.step_text = "Step 1 of " ++ toString steps.length ++ ":\n" ++
        ((pyGet steps 0).getD defaultStep).text.getD "" := by
  simp only [step_completion_branch, hyes, hno, Bool.false_eq_true, if_false, if_true]
  exact ⟨rfl, _, rfl, rfl, rfl, rfl⟩

/-- Core of the negative-decision path at final confirmation, stated over
the post-cancel tail of `step_endpoint` for the pre-advance state `p`. -/
theorem step_no_core (p : AgentState) (steps : List Step) (ci : Int) (action : String)
    (ext : ExtOracle) (vc : Bool) (fa : Option String)
    (hsteps : p.steps = steps) (hidx : p.current_step_index = ci)
    (hraise : p.raised = false) (hfa : p.full_answer = fa)
    (hnot : ¬ ci < (steps.length : Int) - 1)
    (hyes : anyKeyword yes_keywords (pyLower action) = false)
    (hno : anyKeyword no_keywords (pyLower action) = true) :
    (if (next_step_or_finish p).raised then
        mkStepResult .serverError (next_step_or_finish p) vc
      else if (next_step_or_finish p).action_required = some "wait_task_completion_choice" then
        step_completion_branch steps action (next_step_or_finish p) ext vc
      else
        step_advance_branch steps ci (next_step_or_finish p) ext vc).session.current_step_index
      = 0 ∧
    (if (next_step_or_finish p).raised then
        mkStepResult .serverError (next_step_or_finish p) vc
      else if (next_step_or_finish p).action_required = some "wait_task_completion_choice" then
        step_completion_branch steps action (next_step_or_finish p) ext vc
      else
        step_advance_branch steps ci (next_step_or_finish p) ext vc).session.steps.map Step.text
      = steps.map Step.text ∧
    (if (next_step_or_finish p).raised then
        mkStepResult .serverError (next_step_or_finish p) vc
      else if (next_step_or_finish p).action_required = some "wait_task_completion_choice" then
        step_completion_branch steps action (next_step_or_finish p) ext vc
      else
        step_advance_branch steps ci (next_step_or_finish p) ext vc).session.full_answer = fa ∧
    ∃ r,
      (if (next_step_or_finish p).raised then
          mkStepResult .serverError (next_step_or_finish p) vc
        else if (next_step_or_finish p).action_required = some "wait_task_completion_choice" then
          step_completion_branch steps action (next_step_or_finish p) ext vc
        else
          step_advance_branch steps ci (next_step_or_finish p) ext vc).out = .ok r ∧
      r.step_index = 0 ∧ r.action_required = some "wait_user_action" ∧
      r.step_text = "Step 1 of " ++ toString steps.length ++ ":\n" ++
        ((pyGet steps 0).getD defaultStep).text.getD "" := by
  have hlast := next_step_or_finish_action_of_last p (by
    intro hand
    have h2 : p.current_step_index < (p.steps.length : Int) - 1 := hand.2
    rw [hidx, hsteps] at h2
    exact hnot h2)
  have hb := step_completion_branch_no steps action (next_step_or_finish p) ext vc hyes hno
  rw [if_neg (by rw [next_step_or_finish_raised, hraise]; simp)]
  rw [if_pos hlast.1]
  rw [hb.1]
  refine ⟨?_, ?_, ?_, hb.2⟩
  · rw [detect_interaction_type_idx]
  · rw [(detect_interaction_type_keeps _ _ _).2.2.2]
    show (next_step_or_finish p).steps.map Step.text = steps.map Step.text
    rw [(next_step_or_finish_keeps p).1, hsteps]
  · rw [(detect_interaction_type_keeps _ _ _).2.1]
    show (next_step_or_finish p).full_answer = fa
    rw [(next_step_or_finish_keeps p).2.1, hfa]

/-- Core of the skip path at the last step when the decision carries a
yes-keyword: the completion branch fires on the same decision and the task
is marked completed. Stated over the post-cancel tail of `step_endpoint`. -/
theorem step_skip_last_yes (q : AgentState) (steps : List Step) (ci : Int) (action : String)
    (ext : ExtOracle)
    (hsteps : q.steps = steps) (hidx : q.current_step_index = ci)
    (hraise : q.raised = false) (hnot : ¬ ci < (steps.length : Int) - 1)
    (hyes : anyKeyword yes_keywords (pyLower action) = true) :
    (if (next_step_or_finish q).raised then
        mkStepResult .serverError (next_step_or_finish q) false
      else if (next_step_or_finish q).action_required = some "wait_task_completion_choice" then
        step_completion_branch steps action (next_step_or_finish q) ext false
      else
        step_advance_branch steps ci (next_step_or_finish q) ext false).session.action_required
      = none ∧
    (if (next_step_or_finish q).raised then
        mkStepResult .serverError (next_step_or_finish q) false
      else if (next_step_or_finish q).action_required = some "wait_task_completion_choice" then
        step_completion_branch steps action (next_step_or_finish q) ext false
      else
        step_advance_branch steps ci (next_step_or_finish q) ext false).session.mode
      = "simple" ∧
    (if (next_step_or_finish q).raised then
        mkStepResult .serverError (next_step_or_finish q) false
      else if (next_step_or_finish q).action_required = some "wait_task_completion_choice" then
        step_completion_branch steps action (next_step_or_finish q) ext false
      else
        step_advance_branch steps ci (next_step_or_finish q) ext false).out =
      .ok (mkStepResponse
        "Great! Task completed. If you need help with anything else, just ask!"
        ((steps.length : Int) - 1) steps.length false none none) := by
  have hlast := next_step_or_finish_action_of_last q (by
    intro hand
    have h2 : q.current_step_index < (q.steps.length : Int) - 1 := hand.2
    rw [hidx, hsteps] at h2
    exact hnot h2)
  rw [if_neg (by rw [next_step_or_finish_raised, hraise]; simp)]
  rw [if_pos hlast.1]
  simp only [step_completion_branch, hyes, if_true]
  exact ⟨rfl, rfl, rfl⟩

/-- C5 amended: a user decision containing "skip" but not "cancel", issued
while awaiting a user action at a valid step index, never invokes the
step-validation vision call, and the graph router sends it straight to
`next_step`, bypassing the `validate` node; when a later step exists the
stored cursor advances to i+1. At the last step, the skip lands on the
completion branch of the same request, which re-reads the skip decision
itself as the completion answer: with a yes-keyword the task is marked
completed; with a no-keyword but no yes-keyword (e.g. "skip now", whose
"now" contains "no") the session restarts to step 0 and step 1 is
re-presented verbatim; with neither keyword the completion question is
presented and the cursor stays put. -/
theorem skip_advances_amended (s : AgentState) (action : String) (shot : Option String)
    (ext : ExtOracle)
    (hraised : s.raised = false)
    (hskip : pyIn "skip" (pyLower action) = true)
    (hcancel : pyIn "cancel" (pyLower action) = false)
    (hawait : s.action_required = some "wait_user_action")
    (h0 : 0 ≤ s.current_step_index)
    (hlt : s.current_step_index < (s.steps.length : Int)) :
    (step_endpoint s action shot ext).visionValidationCalled = false ∧
    should_continue_after_user_action { s with user_choice := some action } = "next_step" ∧
    (s.current_step_index < (s.steps.length : Int) - 1 →
      (step_endpoint s action shot ext).session.current_step_index =
        s.current_step_index + 1) ∧
    (s.current_step_index = (s.steps.length : Int) - 1 →
      anyKeyword yes_keywords (pyLower action) = false →
      anyKeyword no_keywords (pyLower action) = false →
      (step_endpoint s action shot ext).session.current_step_index = s.current_step_index ∧
      ∃ r, (step_endpoint s action shot ext).out = .ok r ∧
        r.action_required = some "wait_task_completion_choice") ∧
    (s.current_step_index = (s.steps.length : Int) - 1 →
      anyKeyword yes_keywords (pyLower action) = false →
      anyKeyword no_keywords (pyLower action) = true →
      (step_endpoint s action shot ext).session.current_step_index = 0 ∧
      (step_endpoint s action shot ext).session.steps.map Step.text = s.steps.map Step.text ∧
      (step_endpoint s action shot ext).session.full_answer = s.full_answer ∧
      ∃ r, (step_endpoint s action shot ext).out = .ok r ∧
        r.step_index = 0 ∧ r.action_required = some "wait_user_action" ∧
        r.step_text = "Step 1 of " ++ toString s.steps.length ++ ":\n" ++
          ((pyGet s.steps 0).getD defaultStep).text.getD "") ∧
    (s.current_step_index = (s.steps.length : Int) - 1 →
      anyKeyword yes_keywords (pyLower action) = true →
      (step_endpoint s action shot ext).session.action_required = none ∧
      (step_endpoint s action shot ext).session.mode = "simple" ∧
      (step_endpoint s action shot ext).out = .ok (mkStepResponse
        "Great! Task completed. If you need help with anything else, just ask!"
        ((s.steps.length : Int) - 1) s.steps.length false none none)) := by
  obtain ⟨cur, hcur⟩ := Option.isSome_iff_exists.mp (pyGet_isSome_of_nonneg_lt h0 hlt)
  have hne : s.steps ≠ [] := by
    intro hnil
    rw [hnil] at hlt
    simp at hlt
    omega
  refine ⟨?_, ?_, ?_, ?_, ?_, ?_⟩
  · simp only [step_endpoint]
    split <;> rename_i hshot
    all_goals
      simp only
      rw [if_neg (show ¬((s.steps.length : Int) ≤ s.current_step_index) from by omega), hcur]
      simp only [hcancel, hskip, Bool.false_eq_true, if_false, if_true]
      simp [apply_ite (StepResult.visionValidationCalled), step_completion_branch_vc,
        step_advance_branch_vc, mkStepResult]
  · simp [should_continue_after_user_action, hskip, hcancel]
  · intro hlt2
    simp only [step_endpoint]
    split <;> rename_i hshot
    all_goals
      simp only
      rw [if_neg (show ¬((s.steps.length : Int) ≤ s.current_step_index) from by omega), hcur]
      simp only [hcancel, hskip, Bool.false_eq_true, if_false, if_true]
      apply step_skip_core
      case hsteps => rfl
      case hidx => rfl
      case hact => exact hawait
      case hraise => exact hraised
      case hne => exact hne
      case hlt2 => exact hlt2
  · intro hlast hyes hno
    simp only [step_endpoint]
    split <;> rename_i hshot
    all_goals
      simp only
      rw [if_neg (show ¬((s.steps.length : Int) ≤ s.current_step_index) from by omega), hcur]
      simp only [hcancel, hskip, Bool.false_eq_true, if_false, if_true]
      apply step_skip_last
      case hsteps => rfl
      case hidx => rfl
      case hraise => exact hraised
      case hnot => omega
      case hyes => exact hyes
      case hno => exact hno
  · intro hlast hyes2 hno2
    simp only [step_endpoint]
    split <;> rename_i hshot
    all_goals
      simp only
      rw [if_neg (show ¬((s.steps.length : Int) ≤ s.current_step_index) from by omega), hcur]
      simp only [hcancel, hskip, Bool.false_eq_true, if_false, if_true]
      apply step_no_core <;>
        first
          | rfl
          | exact hraised
          | exact hyes2
          | exact hno2
          | omega
  · intro hlast hyes2
    simp only [step_endpoint]
    split <;> rename_i hshot
    all_goals
      simp only
      rw [if_neg (show ¬((s.steps.length : Int) ≤ s.current_step_index) from by omega), hcur]
      simp only [hcancel, hskip, Bool.false_eq_true, if_false, if_true]
      apply step_skip_last_yes <;>
        first
          | rfl
          | exact hraised
          | exact hyes2
          | omega

/-- A two-step session awaiting a user action, cursor at 0. -/
def twoStepAwait : AgentState :=
  { steps := [stepOpenMenu, stepOpenMenu], action_required := some "wait_user_action" }

/-- A two-step session awaiting a user action, cursor at the last step. -/
def twoStepAwaitLast : AgentState :=
  { steps := [stepOpenMenu, stepOpenMenu], current_step_index := 1,
    action_required := some "wait_user_action" }

/-- C5 witness: skipping at step 0 of a concrete two-step session advances
the stored cursor to 1 without any validation call and the router bypasses
`validate`; at the last step the decision "skip now" (whose "now" contains
the no-keyword "no") restarts the session to step 0. -/
theorem skip_advances_amended_witness :
    (step_endpoint twoStepAwait "skip" none plainExt).visionValidationCalled = false ∧
    should_continue_after_user_action { twoStepAwait with user_choice := some "skip" } =
      "next_step" ∧
    (step_endpoint twoStepAwait "skip" none plainExt).session.current_step_index = 1 ∧
    (step_endpoint twoStepAwaitLast "skip now" none plainExt).session.current_step_index
      = 0 := by
  have h := skip_advances_amended twoStepAwait "skip" none plainExt rfl (by decide)
    (by decide) rfl (by decide) (by decide)
  have h2 := skip_advances_amended twoStepAwaitLast "skip now" none plainExt rfl (by decide)
    (by decide) rfl (by decide) (by decide)
  exact ⟨h.1, h.2.1, h.2.2.1 (by decide),
    (h2.2.2.2.2.1 (by decide) (by decide) (by decide)).1⟩

/-! ## C7: the restart law -/


/-- C7: a negative decision at final confirmation resets the stored cursor
to 0 and presents step 1 with its original wording: the response text is
exactly the "Step 1 of n" header plus the verbatim stored text of step 1
(the same presentation `step_agent_start` produced originally); the step
list texts and the stored answer are unchanged (answer generation and step
extraction are not re-run). -/
theorem restart_presents_first_step_verbatim (s : AgentState) (action : String)
    (shot : Option String) (ext : ExtOracle)
    (hraised : s.raised = false)
    (hcancel : pyIn "cancel" (pyLower action) = false)
    (hyes : anyKeyword yes_keywords (pyLower action) = false)
    (hno : anyKeyword no_keywords (pyLower action) = true)
    (hne : s.steps ≠ [])
    (hidx : s.current_step_index = (s.steps.length : Int) - 1) :
    (step_endpoint s action shot ext).session.current_step_index = 0 ∧
    (step_endpoint s action shot ext).session.steps.map Step.text = s.steps.map Step.text ∧
    (step_endpoint s action shot ext).session.full_answer = s.full_answer ∧
    ∃ r, (step_endpoint s action shot ext).out = .ok r ∧
      r.step_index = 0 ∧ r.action_required = some "wait_user_action" ∧
      r.step_text = "Step 1 of " ++ toString s.steps.length ++ ":\n" ++
        ((pyGet s.steps 0).getD defaultStep).text.getD "" := by
  have hlen : 0 < s.steps.length := List.length_pos.mpr hne
  have h0 : 0 ≤ s.current_step_index := by omega
  have hlt : s.current_step_index < (s.steps.length : Int) := by omega
  obtain ⟨cur, hcur⟩ := Option.isSome_iff_exists.mp (pyGet_isSome_of_nonneg_lt h0 hlt)
  simp only [step_endpoint]
  split <;> rename_i hshot
  all_goals
    simp only
    rw [if_neg (show ¬((s.steps.length : Int) ≤ s.current_step_index) from by omega), hcur]
    simp only [hcancel, Bool.false_eq_true, if_false]
    by_cases hsk : pyIn "skip" (pyLower action) = true
    · simp only [hsk, if_true]
      apply step_no_core <;>
        first
          | rfl
          | exact hraised
          | exact hyes
          | exact hno
          | omega
    · simp only [hsk, if_false]
      apply step_no_core <;>
        first
          | rfl
          | exact hyes
          | exact hno
          | omega
          | exact (optional_validate_step_keeps _ _ _ _).1
          | exact (optional_validate_step_keeps _ _ _ _).2.1
          | exact (optional_validate_step_keeps _ _ _ _).2.2.1
          | (refine (optional_validate_step_raised _ _ _ _ cur ?_).trans hraised
             exact hcur)

/-- A one-step session at final confirmation. -/
def oneStepConfirm : AgentState :=
  { steps := [stepOpenMenu], action_required := some "wait_task_completion_choice" }

/-- C7 witness: replying "no" at the final confirmation of a concrete
one-step session resets the cursor and re-presents step 1 verbatim. -/
theorem restart_presents_first_step_verbatim_witness :
    (step_endpoint oneStepConfirm "no" none plainExt).session.current_step_index = 0 ∧
    (∃ r, (step_endpoint oneStepConfirm "no" none plainExt).out = .ok r ∧
      r.step_index = 0 ∧ r.action_required = some "wait_user_action" ∧
      r.step_text = "Step 1 of 1:\nOpen the menu") := by
  have h := restart_presents_first_step_verbatim oneStepConfirm "no" none plainExt rfl
    (by decide) (by decide) (by decide) (by decide) (by decide)
  refine ⟨h.1, ?_⟩
  obtain ⟨r, hr1, hr2, hr3, hr4⟩ := h.2.2.2
  exact ⟨r, hr1, hr2, hr3, by rw [hr4]; decide⟩

/-! ## C3: properties of `_cosine_similarity` -/

theorem map_sum_eq_range (g : ℝ → ℝ) (l : List ℝ) :
    (l.map g).sum = ∑ i ∈ Finset.range l.length, g (l.getD i 0) := by
  induction l with
  | nil => simp
  | cons a t ih =>
    rw [List.map_cons, List.sum_cons, ih, List.length_cons, Finset.sum_range_succ']
    simp [List.getD]
    ring

theorem zipWith_mul_sum_eq_range (u v : List ℝ) (h : u.length = v.length) :
    (List.zipWith (fun a b => a * b) u v).sum =
      ∑ i ∈ Finset.range u.length, u.getD i 0 * v.getD i 0 := by
  induction u generalizing v with
  | nil => simp
  | cons a t ih =>
    cases v with
    | nil => simp at h
    | cons b w =>
      rw [List.zipWith_cons_cons, List.sum_cons, List.length_cons, Finset.sum_range_succ']
      rw [ih w (by simpa using h)]
      simp [List.getD]
      ring

theorem zipWith_mul_self (u : List ℝ) :
    List.zipWith (fun a b => a * b) u u = u.map (fun a => a * a) := by
  induction u with
  | nil => rfl
  | cons a t ih => simp [ih]

theorem magnitude_nonneg (u : List ℝ) : 0 ≤ magnitude u := Real.sqrt_nonneg _

theorem abs_dotProduct_le (u v : List ℝ) (h : u.length = v.length) :
    |dotProduct u v| ≤ magnitude u * magnitude v := by
  have hd : dotProduct u v =
      ∑ i ∈ Finset.range u.length, u.getD i 0 * v.getD i 0 :=
    zipWith_mul_sum_eq_range u v h
  have hmu : magnitude u = Real.sqrt (∑ i ∈ Finset.range u.length, u.getD i 0 ^ 2) := by
    unfold magnitude
    rw [map_sum_eq_range]
    congr 1
    refine Finset.sum_congr rfl fun i _ => ?_
    rw [pow_two]
  have hmv : magnitude v = Real.sqrt (∑ i ∈ Finset.range u.length, v.getD i 0 ^ 2) := by
    unfold magnitude
    rw [map_sum_eq_range, h]
    congr 1
    refine Finset.sum_congr rfl fun i _ => ?_
    rw [pow_two]
  rw [abs_le]
  constructor
  · have hcs := Real.sum_mul_le_sqrt_mul_sqrt (Finset.range u.length)
      (fun i => -(u.getD i 0)) fun i => v.getD i 0
    simp only [neg_mul, Finset.sum_neg_distrib, neg_sq] at hcs
    rw [hd, hmu, hmv]
    linarith
  · have hcs := Real.sum_mul_le_sqrt_mul_sqrt (Finset.range u.length)
      (fun i => u.getD i 0) fun i => v.getD i 0
    rw [hd, hmu, hmv]
    exact hcs

/-- C3: `_cosine_similarity` is symmetric, bounded in [-1, 1], equal to 0
on a length mismatch or a zero magnitude (so it never divides by zero and,
being a total function, never raises), and equal to 1 on identical vectors
with a non-zero entry. -/
theorem cosine_similarity_props (u v : List ℝ) :
    cosine_similarity u v = cosine_similarity v u ∧
    -1 ≤ cosine_similarity u v ∧
    cosine_similarity u v ≤ 1 ∧
    (u.length ≠ v.length → cosine_similarity u v = 0) ∧
    (magnitude u = 0 ∨ magnitude v = 0 → cosine_similarity u v = 0) ∧
    ((∃ x ∈ u, x ≠ 0) → cosine_similarity u u = 1) := by
  have hbounds : ∀ a b : List ℝ, -1 ≤ cosine_similarity a b ∧ cosine_similarity a b ≤ 1 := by
    intro a b
    unfold cosine_similarity
    split
    · constructor <;> norm_num
    split
    · constructor <;> norm_num
    · rename_i hlen hm
      push_neg at hm
      have hlen' : a.length = b.length := by
        by_contra hc
        exact hlen (by simpa using hc)
      have hma : 0 < magnitude a := lt_of_le_of_ne (magnitude_nonneg a) (Ne.symm hm.1)
      have hmb : 0 < magnitude b := lt_of_le_of_ne (magnitude_nonneg b) (Ne.symm hm.2)
      have hprod : 0 < magnitude a * magnitude b := mul_pos hma hmb
      have habs := abs_dotProduct_le a b hlen'
      rw [abs_le] at habs
      constructor
      · rw [le_div_iff₀ hprod]
        linarith [habs.1]
      · rw [div_le_one hprod]
        exact habs.2
  refine ⟨?_, (hbounds u v).1, (hbounds u v).2, ?_, ?_, ?_⟩
  · unfold cosine_similarity
    by_cases hl : u.length = v.length
    · have hdot : dotProduct u v = dotProduct v u := by
        unfold dotProduct
        rw [List.zipWith_comm_of_comm _ (fun a b => mul_comm a b)]
      by_cases hm : magnitude u = 0 ∨ magnitude v = 0
      · rw [if_neg (by simpa using hl), if_pos hm, if_neg (by simpa using hl.symm),
          if_pos (Or.symm hm)]
      · rw [if_neg (by simpa using hl), if_neg hm, if_neg (by simpa using hl.symm),
          if_neg (fun hc => hm (Or.symm hc))]
        rw [hdot, mul_comm]
    · rw [if_pos (by simpa using hl), if_pos (by simpa using fun hc => hl hc.symm)]
  · intro hne
    unfold cosine_similarity
    rw [if_pos hne]
  · intro hm
    unfold cosine_similarity
    by_cases hlen : u.length ≠ v.length
    · rw [if_pos hlen]
    · rw [if_neg hlen, if_pos hm]
  · intro hex
    obtain ⟨x, hxmem, hxne⟩ := hex
    obtain ⟨i, hi, hix⟩ := List.mem_iff_getElem.mp hxmem
    have hsum : 0 < ((u.map fun a => a * a)).sum := by
      rw [map_sum_eq_range]
      refine Finset.sum_pos' (fun j _ => mul_self_nonneg _) ⟨i, Finset.mem_range.mpr hi, ?_⟩
      have : u.getD i 0 = x := by
        rw [List.getD_eq_getElem?_getD, List.getElem?_eq_getElem hi]
        simpa using hix
      rw [this]
      exact mul_self_pos.mpr hxne
    have hmpos : 0 < magnitude u := Real.sqrt_pos.mpr hsum
    unfold cosine_similarity
    rw [if_neg (by simp)]
    rw [if_neg (by
      push_neg
      exact ⟨ne_of_gt hmpos, ne_of_gt hmpos⟩)]
    unfold dotProduct magnitude
    rw [zipWith_mul_self, Real.mul_self_sqrt (le_of_lt hsum)]
    exact div_self (ne_of_gt hsum)

/-- C3 witness: concrete instances discharging each hypothesis — a length
mismatch yields 0, a zero-magnitude operand yields 0, and an identical
non-zero vector yields 1. -/
theorem cosine_similarity_props_witness :
    (([1] : List ℝ).length ≠ ([1, 0] : List ℝ).length) ∧
    cosine_similarity [1] [1, 0] = 0 ∧
    (magnitude ([] : List ℝ) = 0 ∨ magnitude ([1] : List ℝ) = 0) ∧
    cosine_similarity [] [1] = 0 ∧
    (∃ x ∈ ([1] : List ℝ), x ≠ 0) ∧
    cosine_similarity [1] [1] = 1 := by
  have h1 : (([1] : List ℝ).length ≠ ([1, 0] : List ℝ).length) := by decide
  have h2 : (magnitude ([] : List ℝ) = 0 ∨ magnitude ([1] : List ℝ) = 0) :=
    Or.inl (by simp [magnitude])
  have h3 : (∃ x ∈ ([1] : List ℝ), x ≠ 0) := ⟨1, by simp, one_ne_zero⟩
  exact ⟨h1, (cosine_similarity_props [1] [1, 0]).2.2.2.1 h1,
    h2, (cosine_similarity_props [] [1]).2.2.2.2.1 h2,
    h3, (cosine_similarity_props [1] [1]).2.2.2.2.2 h3⟩

/-! ## C2: retrieval is bounded, sorted, and stable -/

theorem scoreDesc_trans (a b c : Chunk × ℝ) (h1 : scoreDesc a b) (h2 : scoreDesc b c) :
    scoreDesc a c := by
  simp only [scoreDesc, decide_eq_true_eq] at *
  exact le_trans h2 h1

theorem scoreDesc_total (a b : Chunk × ℝ) : scoreDesc a b || scoreDesc b a := by
  simp only [scoreDesc, Bool.or_eq_true, decide_eq_true_eq]
  exact le_total b.2 a.2

theorem top_matches_eq_take (chunks : List Chunk) (q : List ℝ) (k : Nat) :
    top_matches chunks q k = (rankedChunks chunks q).take k := by
  simp only [top_matches, rankedChunks]
  rw [List.map_take]

theorem top_matches_length_le (chunks : List Chunk) (q : List ℝ) (k : Nat) :
    (top_matches chunks q k).length ≤ k := by
  simp only [top_matches, List.length_map]
  exact le_trans (List.length_take_le _ _) (le_refl _)

theorem rankedChunks_sorted (chunks : List Chunk) (q : List ℝ) :
    (rankedChunks chunks q).Pairwise
      (fun a b => cosine_similarity q b.embedding ≤ cosine_similarity q a.embedding) := by
  have hs := List.sorted_mergeSort scoreDesc_trans scoreDesc_total
    (chunks.map (fun chunk => (chunk, cosine_similarity q chunk.embedding)))
  have hmem : ∀ p ∈ (chunks.map
      (fun chunk => (chunk, cosine_similarity q chunk.embedding))).mergeSort scoreDesc,
      p.2 = cosine_similarity q p.1.embedding := by
    intro p hp
    rw [List.mem_mergeSort] at hp
    obtain ⟨c, _, rfl⟩ := List.mem_map.mp hp
    rfl
  unfold rankedChunks
  refine List.Pairwise.map _ (fun a b h => h) ?_
  refine hs.imp_of_mem ?_
  intro a b ha hb hab
  have ha2 := hmem a ha
  have hb2 := hmem b hb
  simp only [scoreDesc, decide_eq_true_eq] at hab
  rw [ha2, hb2] at hab
  exact hab

theorem rankedChunks_stable (chunks : List Chunk) (q : List ℝ) (l' : List Chunk)
    (hsub : List.Sublist l' chunks)
    (hties : l'.Pairwise
      (fun a b => cosine_similarity q a.embedding = cosine_similarity q b.embedding)) :
    List.Sublist l' (rankedChunks chunks q) := by
  have hsub2 : List.Sublist
      (l'.map (fun chunk => (chunk, cosine_similarity q chunk.embedding)))
      (chunks.map (fun chunk => (chunk, cosine_similarity q chunk.embedding))) :=
    hsub.map _
  have hpair : (l'.map (fun chunk => (chunk, cosine_similarity q chunk.embedding))).Pairwise
      (scoreDesc · ·) := by
    rw [List.pairwise_map]
    refine hties.imp ?_
    intro a b h
    simp [scoreDesc, h]
  have hst := List.sublist_mergeSort scoreDesc_trans scoreDesc_total hpair hsub2
  have hm := hst.map Prod.fst
  have hid : (l'.map (fun chunk => (chunk, cosine_similarity q chunk.embedding))).map
      Prod.fst = l' := by
    rw [List.map_map]
    exact List.map_id'' (fun x => rfl) _
  rw [hid] at hm
  unfold rankedChunks
  exact hm

/-- C2: `retrieve` returns the `chunk_to_dict` projections of the top
matches; it keeps at most `top_k` general and at most `VERSION_CHECK_TOP_K`
compatibility fragments; the top matches are the prefix of the full stable
ranking, which is ordered by non-increasing cosine similarity to the query
and preserves the original load order on equal-similarity ties (the
standard stability property: any equal-similarity sublist of the index
survives in its original order). -/
theorem retrieve_bounded_sorted_stable (store : RAGStore) (q : List ℝ) (ed : String)
    (k : Nat) :
    (store.retrieve q ed k).full = (top_matches store.full_index q k).map chunk_to_dict ∧
    (store.retrieve q ed k).versions =
      (top_matches store.versions_index q VERSION_CHECK_TOP_K).map chunk_to_dict ∧
    (store.retrieve q ed k).full.length ≤ k ∧
    (store.retrieve q ed k).versions.length ≤ VERSION_CHECK_TOP_K ∧
    top_matches store.full_index q k = (rankedChunks store.full_index q).take k ∧
    top_matches store.versions_index q VERSION_CHECK_TOP_K =
      (rankedChunks store.versions_index q).take VERSION_CHECK_TOP_K ∧
    (rankedChunks store.full_index q).Pairwise
      (fun a b => cosine_similarity q b.embedding ≤ cosine_similarity q a.embedding) ∧
    (rankedChunks store.versions_index q).Pairwise
      (fun a b => cosine_similarity q b.embedding ≤ cosine_similarity q a.embedding) ∧
    (∀ l', List.Sublist l' store.full_index →
      l'.Pairwise
        (fun a b => cosine_similarity q a.embedding = cosine_similarity q b.embedding) →
      List.Sublist l' (rankedChunks store.full_index q)) ∧
    (∀ l', List.Sublist l' store.versions_index →
      l'.Pairwise
        (fun a b => cosine_similarity q a.embedding = cosine_similarity q b.embedding) →
      List.Sublist l' (rankedChunks store.versions_index q)) := by
  refine ⟨rfl, rfl, ?_, ?_, top_matches_eq_take _ _ _, top_matches_eq_take _ _ _,
    rankedChunks_sorted _ _, rankedChunks_sorted _ _,
    fun l' h1 h2 => rankedChunks_stable _ _ l' h1 h2,
    fun l' h1 h2 => rankedChunks_stable _ _ l' h1 h2⟩
  · show ((top_matches store.full_index q k).map chunk_to_dict).length ≤ k
    rw [List.length_map]
    exact top_matches_length_le _ _ _
  · show ((top_matches store.versions_index q VERSION_CHECK_TOP_K).map chunk_to_dict).length ≤
      VERSION_CHECK_TOP_K
    rw [List.length_map]
    exact top_matches_length_le _ _ _

/-- C2 witness: the theorem instantiated at a concrete one-chunk store. -/
theorem retrieve_bounded_sorted_stable_witness :
    (RAGStore.retrieve { full_index := [], versions_index := [] } [] "Suite" 5).full.length
      ≤ 5 ∧
    (∀ l', List.Sublist l' ([] : List Chunk) →
      l'.Pairwise
        (fun a b => cosine_similarity [] a.embedding = cosine_similarity [] b.embedding) →
      List.Sublist l' (rankedChunks [] [])) := by
  have h := retrieve_bounded_sorted_stable { full_index := [], versions_index := [] } []
    "Suite" 5
  exact ⟨h.2.2.1, h.2.2.2.2.2.2.2.2.1⟩

/-! ## C10: shape of the returned fragment dictionaries -/

theorem top_matches_subset (chunks : List Chunk) (q : List ℝ) (k : Nat) :
    ∀ c ∈ top_matches chunks q k, c ∈ chunks := by
  intro c hc
  simp only [top_matches] at hc
  obtain ⟨p, hp, rfl⟩ := List.mem_map.mp hc
  have hp2 := List.mem_of_mem_take hp
  rw [List.mem_mergeSort] at hp2
  obtain ⟨c', hc', rfl⟩ := List.mem_map.mp hp2
  exact hc'

/-- C10: the store object is unchanged by `retrieve`; every returned
fragment dictionary is the `chunk_to_dict` projection of a stored chunk of
the corresponding index, carrying exactly the keys id, content, edition,
metadata — and never an embedding value. -/
theorem retrieve_dict_shape (store : RAGStore) (q : List ℝ) (ed : String) (k : Nat) :
    (RAGStore.retrieveCall store q ed k).2 = store ∧
    (RAGStore.retrieveCall store q ed k).1 = store.retrieve q ed k ∧
    (∀ d ∈ (store.retrieve q ed k).full, ∃ c ∈ store.full_index, d = chunk_to_dict c) ∧
    (∀ d ∈ (store.retrieve q ed k).versions,
      ∃ c ∈ store.versions_index, d = chunk_to_dict c) ∧
    (∀ c : Chunk, (chunk_to_dict c).map Prod.fst = ["id", "content", "edition", "metadata"]) ∧
    (∀ c : Chunk, "embedding" ∉ (chunk_to_dict c).map Prod.fst) ∧
    (∀ c : Chunk, ∀ p ∈ chunk_to_dict c, ∀ e, p.2 ≠ DictVal.vEmb e) := by
  refine ⟨rfl, rfl, ?_, ?_, fun c => rfl, fun c => by simp [chunk_to_dict], ?_⟩
  · intro d hd
    obtain ⟨c, hc, rfl⟩ := List.mem_map.mp hd
    exact ⟨c, top_matches_subset _ _ _ c hc, rfl⟩
  · intro d hd
    obtain ⟨c, hc, rfl⟩ := List.mem_map.mp hd
    exact ⟨c, top_matches_subset _ _ _ c hc, rfl⟩
  · intro c p hp e
    simp only [chunk_to_dict, List.mem_cons, List.mem_singleton] at hp
    rcases hp with rfl | rfl | rfl | hp
    · simp
    · simp
    · simp
    · simp only [List.mem_cons, List.not_mem_nil, or_false] at hp
      subst hp
      simp

/-- C10 witness: a concrete chunk's dictionary has exactly the four keys
and no embedding entry, and a concrete call leaves the store unchanged. -/
theorem retrieve_dict_shape_witness :
    (chunk_to_dict { id := "c1", content := "body", edition := some "Suite", embedding := [1], metadata := [("title", "T")] }).map Prod.fst =
      ["id", "content", "edition", "metadata"] ∧
    (RAGStore.retrieveCall { full_index := [], versions_index := [] } [] "Suite" 5).2 =
      { full_index := [], versions_index := [] } := by
  have h1 := (retrieve_dict_shape { full_index := [], versions_index := [] } [] "Suite" 5).2.2.2.2.1
    { id := "c1", content := "body", edition := some "Suite", embedding := [1], metadata := [("title", "T")] }
  have h2 := (retrieve_dict_shape { full_index := [], versions_index := [] } [] "Suite" 5).1
  exact ⟨h1, h2⟩
